import Mathlib

/-
Shallow embedding of the RIPER-5 phase workflow engine: the state manager
(`state-manager.js`), the transition rule engine (`mode-rules.js`), the
history analytics (`mode-history.js`) and the mode manager (`modeManager.js`),
together with the default configuration (`config.js`).

Modelling conventions:
- modes and task ids are plain strings, as in the source;
- timestamps are integers (milliseconds since epoch); the source stores ISO
  strings and converts back with `new Date(...)`, which is a bijective
  encoding of the same instant.  Wherever the source calls `new Date()` /
  `Date.now()`, the model takes an explicit `now : Int` argument;
- the durable state store (one JSON file per task id) is a map from task id
  to workflow state, passed and returned explicitly;
- the module-global configuration (`config.getConfig()`) and the rule and
  hook registries are passed explicitly;
- JS objects with mode keys are association lists, preserving insertion
  order (JS objects enumerate string keys in insertion order);
- fallible JS functions that return `{ success, message, ... }` objects are
  records with a `success` flag; rule conditions and hooks, which can
  *throw*, return `Except String`.
-/

/-- Phase (mode) identifiers are plain strings in the source. -/
abbrev Mode := String

/-- One checklist entry, as built by `createState`: `text` plus a
`completed` flag. -/
structure ChecklistItem where
  text : String
  completed : Bool
deriving DecidableEq

/-- One mode-history entry (`state-manager.js` `createState` /
`updateModeHistory`); `comment` is only ever attached later by
`addCommentToHistory`. -/
structure HistoryEntry where
  mode : Mode
  timestamp : Int
  note : String
  comment : Option String := none
deriving DecidableEq

/-- A per-mode artifact as stored by `addArtifact`: the caller-supplied
free-form fields plus the generated `id` and `createdAt`. -/
structure Artifact where
  fields : List (String × String)
  id : String
  createdAt : Int
deriving DecidableEq

/-- The `metadata` sub-object of a workflow state. -/
structure StateMetadata where
  createdAt : Int
  updatedAt : Int
deriving DecidableEq

/-- The per-task RIPER-5 workflow state (the JSON document persisted by
`state-manager.js`). -/
structure R5State where
  taskId : String
  currentMode : Mode
  modeHistory : List HistoryEntry
  checklistProgress : List (Mode × List ChecklistItem)
  notes : List (Mode × String)
  artifacts : List (Mode × List Artifact)
  metadata : StateMetadata
deriving DecidableEq

/-- Per-mode configuration (`config.js` `DEFAULT_CONFIG.modes[...]`).
The `aiPromptTemplate` field is omitted: it is consumed only by the
LLM-prompt layer and never read by the engine. -/
structure ModeConfig where
  description : String
  nextModes : List Mode
  checklistItems : List String
deriving DecidableEq

/-- The `settings` section of the configuration; of its fields only
`defaultMode` is read by the modelled operations. -/
structure R5Settings where
  defaultMode : Mode
deriving DecidableEq

/-- The configuration object returned by `config.getConfig()`; the `paths`
section (file-system layout) is a storage detail outside the model. -/
structure Config where
  modes : List (Mode × ModeConfig)
  settings : R5Settings
deriving DecidableEq

/-- `DEFAULT_CONFIG` from `config.js`. -/
def defaultConfig : Config :=
  { modes :=
      [ ("research",
         { description := "研究模式 - 收集和分析信息，识别问题和机会"
           nextModes := ["innovate", "plan"]
           checklistItems :=
             ["明确定义了研究问题或目标", "收集了相关信息和资源", "分析了收集到的数据",
              "识别了关键问题和机会", "记录了发现和见解"] }),
        ("innovate",
         { description := "创新模式 - 提出创新思路和解决方案"
           nextModes := ["plan"]
           checklistItems :=
             ["采用了创新思维技术", "生成了多个潜在解决方案", "评估了创新方案的可行性",
              "选择了最佳创新路径", "记录了创新过程和决策"] }),
        ("plan",
         { description := "计划模式 - 制定详细的执行计划"
           nextModes := ["execute"]
           checklistItems :=
             ["定义了明确的目标和成功标准", "分解了任务为可管理的步骤", "制定了时间表和里程碑",
              "分配了必要的资源", "识别了风险并制定了应对策略"] }),
        ("execute",
         { description := "执行模式 - 实施计划并监控进度"
           nextModes := ["review"]
           checklistItems :=
             ["按照计划开始执行任务", "跟踪进度和指标", "处理执行中的问题和障碍",
              "与相关方沟通进展情况", "完成了所有计划的工作项"] }),
        ("review",
         { description := "审查模式 - 评估结果和总结经验"
           nextModes := ["research", "innovate", "plan", "execute"]
           checklistItems :=
             ["评估了结果与目标的一致性", "收集了反馈和意见", "分析了成功因素和不足之处",
              "提出了改进建议", "记录了经验教训供未来参考"] }) ]
    settings := { defaultMode := "research" } }

/-- The durable keyed store: one optional persisted state per task id. -/
def Store := String → Option R5State

/-- The store before any state file has been written. -/
def emptyStore : Store := fun _ => none

/-- `saveState` (`state-manager.js`): (over)write the state file for one
task id. -/
def saveState (taskId : String) (state : R5State) (store : Store) : Store :=
  fun k => if k = taskId then some state else store k

/-- Lookup in a JS object with mode keys (`obj[mode]`), first binding wins
(object keys are unique in practice). -/
def assocLookup {β : Type} : List (Mode × β) → Mode → Option β
  | [], _ => none
  | (k0, v) :: rest, k => if k0 = k then some v else assocLookup rest k

/-- `\x7b ...obj \x7d` followed by `copy[mode] = v`: replace the binding if
the key is present, append it otherwise (JS keeps the original insertion
position of an existing key). -/
def assocSet {β : Type} (l : List (Mode × β)) (k : Mode) (v : β) : List (Mode × β) :=
  if l.any (fun p => p.1 = k) then
    l.map (fun p => if p.1 = k then (k, v) else p)
  else l ++ [(k, v)]

/-- `obj[k] = (obj[k] || zero) + v` on a JS object used as a counter /
accumulator map, preserving key insertion order. -/
def bumpBy {β : Type} (add : β → β → β) (zero : β) :
    List (String × β) → String → β → List (String × β)
  | [], k, v => [(k, add zero v)]
  | (k0, w) :: rest, k, v =>
    if k0 = k then (k0, add w v) :: rest else (k0, w) :: bumpBy add zero rest k v

/-- JS `opt || dflt` on an optional string: the empty string is falsy. -/
def jsOr (o : Option String) (dflt : String) : String :=
  match o with
  | some s => if s = "" then dflt else s
  | none => dflt

/-- Result shape of the state-manager operations:
`\x7b success, message, state? \x7d`.  The `filePath` field of `getState`
(a storage detail) and the `error` object are omitted. -/
structure StateResult where
  success : Bool
  message : String
  state : Option R5State := none
deriving DecidableEq

/-- The `options` argument of `createState`. -/
structure CreateOptions where
  initialMode : Option Mode := none
  note : Option String := none

/-- The `newState` object built by `createState`: a single initialization
history entry, checklists instantiated from the catalog templates, and empty
notes / artifacts for every configured mode, in configuration order. -/
def freshState (cfg : Config) (taskId : String) (opts : CreateOptions) (now : Int) : R5State :=
  let initialMode := jsOr opts.initialMode cfg.settings.defaultMode
  { taskId := taskId
    currentMode := initialMode
    modeHistory := [{ mode := initialMode, timestamp := now, note := jsOr opts.note "初始化RIPER-5工作流" }]
    checklistProgress :=
      cfg.modes.map (fun p => (p.1, p.2.checklistItems.map (fun t => { text := t, completed := false })))
    notes := cfg.modes.map (fun p => (p.1, ""))
    artifacts := cfg.modes.map (fun p => (p.1, ([] : List Artifact)))
    metadata := { createdAt := now, updatedAt := now } }

/-- `createState` (`state-manager.js`): build a fresh state and save it.
Note that the source performs no existence check before `saveState`. -/
def createState (cfg : Config) (taskId : String) (opts : CreateOptions)
    (store : Store) (now : Int) : StateResult × Store :=
  let newState := freshState cfg taskId opts now
  ({ success := true
     message := "RIPER-5状态创建成功: 任务 #" ++ taskId
     state := some newState },
   saveState taskId newState store)

/-- `getState` (`state-manager.js`): read the persisted state; if the state
file does not exist (`ENOENT`), fall back to `createState` (lazy-create). -/
def getState (cfg : Config) (taskId : String) (store : Store) (now : Int) :
    StateResult × Store :=
  match store taskId with
  | some s =>
    ({ success := true, message := "获取RIPER-5状态成功: 任务 #" ++ taskId, state := some s }, store)
  | none => createState cfg taskId {} store now

/-- The `updates` object passed to `updateState` by its callers: each field
that is present overrides the corresponding state field (object spread). -/
structure StateUpdates where
  currentMode : Option Mode := none
  modeHistory : Option (List HistoryEntry) := none
  checklistProgress : Option (List (Mode × List ChecklistItem)) := none
  notes : Option (List (Mode × String)) := none
  artifacts : Option (List (Mode × List Artifact)) := none

/-- `\x7b ...state, ...updates, metadata: \x7b ...state.metadata,
updatedAt: now \x7d \x7d` from `updateState`. -/
def applyUpdates (s : R5State) (upd : StateUpdates) (now : Int) : R5State :=
  { taskId := s.taskId
    currentMode := upd.currentMode.getD s.currentMode
    modeHistory := upd.modeHistory.getD s.modeHistory
    checklistProgress := upd.checklistProgress.getD s.checklistProgress
    notes := upd.notes.getD s.notes
    artifacts := upd.artifacts.getD s.artifacts
    metadata := { createdAt := s.metadata.createdAt, updatedAt := now } }

/-- `updateState` (`state-manager.js`): read-modify-write with a refreshed
`updatedAt`. -/
def updateState (cfg : Config) (taskId : String) (upd : StateUpdates)
    (store : Store) (now : Int) : StateResult × Store :=
  let g := getState cfg taskId store now
  match g.1.state with
  | none =>
    ({ success := false
       message := "RIPER-5状态更新失败: 无法获取任务 #" ++ taskId ++ " 的当前状态" }, g.2)
  | some s =>
    let updated := applyUpdates s upd now
    ({ success := true
       message := "RIPER-5状态更新成功: 任务 #" ++ taskId
       state := some updated },
     saveState taskId updated g.2)

/-- `updateModeHistory` (`state-manager.js`): append a history entry and set
`currentMode` in one `updateState` call. -/
def updateModeHistory (cfg : Config) (taskId : String) (mode : Mode) (note : String)
    (store : Store) (now : Int) : StateResult × Store :=
  let g := getState cfg taskId store now
  match g.1.state with
  | none =>
    ({ success := false
       message := "更新模式历史记录失败: 无法获取任务 #" ++ taskId ++ " 的当前状态" }, g.2)
  | some s =>
    updateState cfg taskId
      { currentMode := some mode
        modeHistory := some (s.modeHistory ++ [{ mode := mode, timestamp := now, note := note }]) }
      g.2 now

/-- In-place update of one list element (`arr[i] = f(arr[i])`). -/
def listModify {α : Type} (f : α → α) : List α → Nat → List α
  | [], _ => []
  | a :: rest, 0 => f a :: rest
  | a :: rest, n + 1 => a :: listModify f rest n

/-- `updateChecklistItem` (`state-manager.js`).  The source also rejects
negative indices; indices are naturals here, so only the upper bound is
checked. -/
def updateChecklistItem (cfg : Config) (taskId : String) (mode : Mode)
    (itemIndex : Nat) (completed : Bool) (store : Store) (now : Int) :
    StateResult × Store :=
  let g := getState cfg taskId store now
  match g.1.state with
  | none =>
    ({ success := false
       message := "更新检查列表项失败: 无法获取任务 #" ++ taskId ++ " 的当前状态" }, g.2)
  | some s =>
    match assocLookup s.checklistProgress mode with
    | none => ({ success := false, message := "更新检查列表项失败: 模式不存在: " ++ mode }, g.2)
    | some checklist =>
      if itemIndex < checklist.length then
        let updatedList :=
          listModify (fun item => { item with completed := completed }) checklist itemIndex
        updateState cfg taskId
          { checklistProgress := some (assocSet s.checklistProgress mode updatedList) }
          g.2 now
      else
        ({ success := false
           message := "更新检查列表项失败: 检查列表项索引无效: " ++ toString itemIndex }, g.2)

/-- `updateNote` (`state-manager.js`): replace or append the per-mode note.
An ISO timestamp is interpolated into the separator when appending; it is
rendered here as the decimal millisecond clock. -/
def updateNote (cfg : Config) (taskId : String) (mode : Mode) (note : String)
    (append : Bool) (store : Store) (now : Int) : StateResult × Store :=
  let g := getState cfg taskId store now
  match g.1.state with
  | none =>
    ({ success := false
       message := "更新模式笔记失败: 无法获取任务 #" ++ taskId ++ " 的当前状态" }, g.2)
  | some s =>
    match assocLookup s.notes mode with
    | none => ({ success := false, message := "更新模式笔记失败: 模式不存在: " ++ mode }, g.2)
    | some old =>
      let updated :=
        if append then old ++ "\n\n--- " ++ toString now ++ " ---\n" ++ note else note
      updateState cfg taskId { notes := some (assocSet s.notes mode updated) } g.2 now

/-- `addArtifact` (`state-manager.js`).  The generated id is
`Date.now() + '-' + <random suffix>`; the random suffix is an explicit
`entropy` argument here. -/
def addArtifact (cfg : Config) (taskId : String) (mode : Mode)
    (artifact : List (String × String)) (entropy : String)
    (store : Store) (now : Int) : StateResult × Store :=
  let g := getState cfg taskId store now
  match g.1.state with
  | none =>
    ({ success := false
       message := "添加工件失败: 无法获取任务 #" ++ taskId ++ " 的当前状态" }, g.2)
  | some s =>
    match assocLookup s.artifacts mode with
    | none => ({ success := false, message := "添加工件失败: 模式不存在: " ++ mode }, g.2)
    | some l =>
      updateState cfg taskId
        { artifacts := some (assocSet s.artifacts mode
            (l ++ [{ fields := artifact, id := toString now ++ "-" ++ entropy, createdAt := now }])) }
        g.2 now

/-- `addCommentToHistory` (`mode-history.js`): set the `comment` field of
one existing history entry and save, bypassing `updateState` (so
`metadata.updatedAt` is not refreshed). -/
def addCommentToHistory (cfg : Config) (taskId : String) (historyIndex : Nat)
    (comment : String) (store : Store) (now : Int) : StateResult × Store :=
  let g := getState cfg taskId store now
  match g.1.state with
  | none =>
    ({ success := false
       message := "添加历史记录注释失败: 无法获取任务 #" ++ taskId ++ " 的状态" }, g.2)
  | some s =>
    if historyIndex < s.modeHistory.length then
      let updated :=
        { s with modeHistory :=
            listModify (fun e => { e with comment := some comment }) s.modeHistory historyIndex }
      ({ success := true, message := "评论添加成功", state := some updated },
       saveState taskId updated g.2)
    else
      ({ success := false, message := "无效的历史记录索引: " ++ toString historyIndex }, g.2)

/-- A transition rule outcome (`\x7b isValid, message, severity?,
recommendation? \x7d`); `severity` is kept as an optional raw string, as the
aggregation in `validateTransition` compares it literally against
`'error'` and `'warning'`. -/
structure RuleOutcome where
  isValid : Bool
  message : String
  severity : Option String := none
  recommendation : Option String := none
deriving DecidableEq

/-- The `context` object passed to rule conditions by `switchMode`:
`\x7b taskId, state \x7d`. -/
structure RuleContext where
  taskId : String
  state : Option R5State := none

/-- A transition rule (`\x7b id, name, description, condition \x7d`).  The
`condition` may throw, hence `Except`; it receives the configuration, the
store and the clock explicitly because the source conditions read the
module-global config and call `stateManager.getState` / `new Date()`.
A condition's own lazy-create side effect on the store is dropped (read-only
view): inside `switchMode` the state always already exists at that point. -/
structure Rule where
  id : String
  name : String
  description : String
  condition : Config → Mode → Mode → RuleContext → Store → Int → Except String RuleOutcome

/-- The rule registry (`ruleRegistry` in `mode-rules.js`): built-in
(`default`) and custom rules. -/
structure Registry where
  default : List Rule
  custom : List Rule

/-- JS `Math.round(100 * completed / total)` for the checklist-completion
message, computed exactly over integers: `round(100c/t) = ⌊(200c+t)/(2t)⌋`. -/
def roundPercent (completed total : Nat) : Nat :=
  (200 * completed + total) / (2 * total)

/-- Built-in rule 1, `checklist-completion` (`mode-rules.js`): warn when the
source mode's checklist completion ratio is below 0.7.  The source compares
`completedItems / checklist.length < 0.7` on JS numbers; this is modelled by
the exact equivalent `10 * completedItems < 7 * checklist.length`. -/
def checklistCompletionRule : Rule :=
  { id := "checklist-completion"
    name := "检查清单完成度规则"
    description := "如果当前模式的检查清单完成度不足，建议继续当前模式"
    condition := fun cfg fromMode _toMode ctx store now =>
      let g := (getState cfg ctx.taskId store now).1
      if g.success = false then
        .ok { isValid := true, message := "无法获取状态，跳过规则验证" }
      else
        match g.state with
        | none => .ok { isValid := true, message := "无法获取状态，跳过规则验证" }
        | some state =>
          let checklist := (assocLookup state.checklistProgress fromMode).getD []
          if checklist.length = 0 then
            .ok { isValid := true, message := "没有检查清单项，跳过规则验证" }
          else
            let completedItems := (checklist.filter (fun item => item.completed)).length
            if 10 * completedItems < 7 * checklist.length then
              .ok { isValid := false
                    message := "检查清单完成度不足 (" ++
                      toString (roundPercent completedItems checklist.length) ++
                      "%)，建议继续当前模式"
                    recommendation := some "建议在模式切换前完成更多检查清单项"
                    severity := some "warning" }
            else
              .ok { isValid := true, message := "检查清单完成度足够" } }

/-- `join(', ')` / `join(',')`: JS `Array.prototype.join`. -/
def joinSep (sep : String) : List String → String
  | [] => ""
  | [a] => a
  | a :: b :: rest => a ++ sep ++ joinSep sep (b :: rest)

/-- Built-in rule 2, `valid-transition-path` (`mode-rules.js`): error when
the target mode is not among the configured `nextModes` of the source mode;
an empty (or missing) `nextModes` list allows any transition. -/
def validTransitionRule : Rule :=
  { id := "valid-transition-path"
    name := "有效转换路径规则"
    description := "验证模式转换是否遵循配置中定义的有效路径"
    condition := fun cfg fromMode toMode _ctx _store _now =>
      let nextModeOptions := ((assocLookup cfg.modes fromMode).map (fun mc => mc.nextModes)).getD []
      if nextModeOptions.length = 0 then
        .ok { isValid := true, message := "没有定义转换限制，允许任意转换" }
      else if toMode ∈ nextModeOptions then
        .ok { isValid := true, message := "模式转换路径有效" }
      else
        .ok { isValid := false
              message := "无效的模式转换路径: " ++ fromMode ++ " -> " ++ toMode
              recommendation := some ("有效的转换选项: " ++ joinSep ", " nextModeOptions)
              severity := some "error" } }

/-- `formatDuration` (`mode-rules.js`), on millisecond integers.  JS
`Math.floor` division is `Int.fdiv`; the `%` remainders only surface for
positive durations, where `emod` agrees with JS `%`. -/
def formatDuration (milliseconds : Int) : String :=
  let seconds := milliseconds.fdiv 1000
  let minutes := seconds.fdiv 60
  let hours := minutes.fdiv 60
  if 0 < hours then toString hours ++ "小时" ++ toString (minutes.emod 60) ++ "分钟"
  else if 0 < minutes then toString minutes ++ "分钟" ++ toString (seconds.emod 60) ++ "秒"
  else toString seconds ++ "秒"

/-- Built-in rule 3, `min-time-spent` (`mode-rules.js`): warn when less than
5 minutes have elapsed since `state.modeHistory.find(h => h.mode ===
fromMode)` — note that JS `find` returns the *first* matching entry. -/
def minTimeSpentRule : Rule :=
  { id := "min-time-spent"
    name := "最短停留时间规则"
    description := "确保在当前模式停留了足够的时间，防止过快切换"
    condition := fun cfg fromMode _toMode ctx store now =>
      let g := (getState cfg ctx.taskId store now).1
      if g.success = false then
        .ok { isValid := true, message := "无法获取状态，跳过规则验证" }
      else
        match g.state with
        | none => .ok { isValid := true, message := "无法获取状态，跳过规则验证" }
        | some state =>
          match state.modeHistory.find? (fun h => h.mode = fromMode) with
          | none => .ok { isValid := true, message := "无法找到当前模式的历史记录，跳过规则验证" }
          | some lastModeChange =>
            let timeSpent := now - lastModeChange.timestamp
            if timeSpent < 5 * 60 * 1000 then
              .ok { isValid := false
                    message := "在当前模式停留时间过短 (" ++ formatDuration timeSpent ++ ")"
                    recommendation := some ("建议至少停留 " ++ formatDuration (5 * 60 * 1000))
                    severity := some "warning" }
            else
              .ok { isValid := true, message := "模式停留时间足够" } }

/-- `addDefaultRules` (`mode-rules.js`): the registry right after
initialization. -/
def defaultRegistry : Registry :=
  { default := [checklistCompletionRule, validTransitionRule, minTimeSpentRule]
    custom := [] }

/-- One entry of `validationResults`: the rule id/name spread together with
the outcome, or — when the condition throws — a passing outcome with a
diagnostic message (`threw` models the presence of the `error` field). -/
structure RuleResult where
  ruleId : String
  ruleName : String
  isValid : Bool
  message : String
  severity : Option String := none
  recommendation : Option String := none
  threw : Bool := false
deriving DecidableEq

/-- Evaluation of one rule inside `validateTransition`, including the
fail-open `catch`: a throwing condition yields `isValid: true` with an
explanatory message. -/
def evalRule (rule : Rule) (cfg : Config) (fromMode toMode : Mode)
    (ctx : RuleContext) (store : Store) (now : Int) : RuleResult :=
  match rule.condition cfg fromMode toMode ctx store now with
  | .ok o =>
    { ruleId := rule.id, ruleName := rule.name, isValid := o.isValid
      message := o.message, severity := o.severity, recommendation := o.recommendation }
  | .error e =>
    { ruleId := rule.id, ruleName := rule.name, isValid := true
      message := "规则执行出错: " ++ e, threw := true }

/-- Accumulator of the result-processing loop in `validateTransition`. -/
structure AggState where
  isValid : Bool
  errors : List RuleResult
  warnings : List RuleResult
deriving DecidableEq

/-- One iteration of the `results.forEach` loop in `validateTransition`:
an invalid outcome with severity `error` (or with no recognized severity)
flips the aggregate and is collected as an error; an invalid `warning` is
collected as a warning and flips the aggregate only when warnings are
treated as errors. -/
def aggStep (includeWarnings : Bool) (acc : AggState) (r : RuleResult) : AggState :=
  if r.isValid then acc
  else if r.severity = some "error" then
    { isValid := false, errors := acc.errors ++ [r], warnings := acc.warnings }
  else if r.severity = some "warning" then
    { isValid := if includeWarnings then false else acc.isValid
      errors := acc.errors, warnings := acc.warnings ++ [r] }
  else
    { isValid := false, errors := acc.errors ++ [r], warnings := acc.warnings }

/-- The whole result-processing loop of `validateTransition`. -/
def aggregateResults (includeWarnings : Bool) (results : List RuleResult) : AggState :=
  results.foldl (aggStep includeWarnings) { isValid := true, errors := [], warnings := [] }

/-- The report returned by `validateTransition`. -/
structure ValidationReport where
  success : Bool
  isValid : Bool
  message : String
  results : List RuleResult
  errors : List RuleResult
  warnings : List RuleResult
deriving DecidableEq

/-- `validateTransition` (`mode-rules.js`): evaluate every registered rule
(default then custom) and aggregate the outcomes.  Nothing in the modelled
body can itself throw, so `success` is always `true` (the outer `catch` of
the source is unreachable here). -/
def validateTransition (reg : Registry) (cfg : Config) (fromMode toMode : Mode)
    (ctx : RuleContext) (includeWarnings : Bool) (store : Store) (now : Int) :
    ValidationReport :=
  let allRules := reg.default ++ reg.custom
  let results := allRules.map (fun r => evalRule r cfg fromMode toMode ctx store now)
  let agg := aggregateResults includeWarnings results
  { success := true
    isValid := agg.isValid
    message :=
      if agg.isValid then "模式转换验证通过: " ++ fromMode ++ " -> " ++ toMode
      else "模式转换验证失败: " ++ fromMode ++ " -> " ++ toMode
    results := results
    errors := agg.errors
    warnings := agg.warnings }

/-- The `data` object handed to mode-switch hooks. -/
structure HookData where
  taskId : String
  fromMode : Mode
  toMode : Mode
  state : Option R5State

/-- A mode-switch hook callback; it may throw. -/
def Hook := HookData → Except String Unit

/-- The hook registry of `modeManager.js`. -/
structure Hooks where
  beforeModeSwitch : List Hook := []
  afterModeSwitch : List Hook := []

/-- `runHooks` (`modeManager.js`): run every registered callback;
`Promise.all` rejects with the first rejection. -/
def runHooks (hs : List Hook) (data : HookData) : Except String Unit :=
  match hs with
  | [] => .ok ()
  | h :: rest =>
    match h data with
    | .error e => .error e
    | .ok _ => runHooks rest data

/-- The `options` argument of `switchMode`; note the source defaults
`ignoreWarnings` to `true`.  `projectRoot` (a storage path) is omitted. -/
structure SwitchOptions where
  taskId : String := ""
  note : String := ""
  force : Bool := false
  ignoreWarnings : Bool := true

/-- The result object of `switchMode`; the `error` payload is omitted. -/
structure SwitchResult where
  success : Bool
  message : String
  state : Option R5State := none
  previousMode : Option Mode := none
  validationResult : Option ValidationReport := none
deriving DecidableEq

/-- `switchMode` (`modeManager.js`): no-op when already in the target mode;
otherwise validate (unless `force`), run `beforeModeSwitch` hooks, append
the history entry via `updateModeHistory`, then run `afterModeSwitch`
hooks.  Any hook rejection lands in the outer `catch`, which reports
failure — including a rejection of an *after* hook, at which point the
history update has already been persisted. -/
def switchMode (reg : Registry) (hooks : Hooks) (cfg : Config) (mode : Mode)
    (opts : SwitchOptions) (store : Store) (now : Int) : SwitchResult × Store :=
  if opts.taskId = "" then
    ({ success := false, message := "模式切换失败: 未提供任务ID" }, store)
  else
    let g := getState cfg opts.taskId store now
    match g.1.state with
    | none =>
      ({ success := false
         message := "模式切换失败: 无法获取任务 #" ++ opts.taskId ++ " 的当前状态" }, g.2)
    | some state =>
      let currentMode := state.currentMode
      if currentMode = mode then
        ({ success := true
           message := "任务 #" ++ opts.taskId ++ " 已经处于 " ++ mode ++ " 模式"
           state := some state }, g.2)
      else
        let earlyReject : Option SwitchResult :=
          if opts.force then none
          else
            let validation :=
              validateTransition reg cfg currentMode mode
                { taskId := opts.taskId, state := some state } (!opts.ignoreWarnings) g.2 now
            if validation.success = false ∨ validation.isValid = false then
              if validation.errors.length ≠ 0 then
                some { success := false
                       message := "模式转换验证失败: " ++ currentMode ++ " -> " ++ mode
                       validationResult := some validation }
              else if opts.ignoreWarnings = false ∧ validation.warnings.length ≠ 0 then
                some { success := false
                       message := "模式转换有警告: " ++ currentMode ++ " -> " ++ mode
                       validationResult := some validation }
              else none
            else none
        match earlyReject with
        | some r => (r, g.2)
        | none =>
          match runHooks hooks.beforeModeSwitch
              { taskId := opts.taskId, fromMode := currentMode, toMode := mode, state := some state } with
          | .error e => ({ success := false, message := "模式切换失败: " ++ e }, g.2)
          | .ok _ =>
            let u := updateModeHistory cfg opts.taskId mode opts.note g.2 now
            if u.1.success = false then
              ({ success := false, message := "模式切换失败: 更新模式历史失败: " ++ u.1.message }, u.2)
            else
              match runHooks hooks.afterModeSwitch
                  { taskId := opts.taskId, fromMode := currentMode, toMode := mode, state := u.1.state } with
              | .error e => ({ success := false, message := "模式切换失败: " ++ e }, u.2)
              | .ok _ =>
                ({ success := true
                   message := "模式切换成功: " ++ currentMode ++ " -> " ++ mode
                   state := u.1.state
                   previousMode := some currentMode }, u.2)

/-- `calculateTransitionStats` (`mode-history.js`): count each ordered
adjacent mode pair, keyed by the string `from -> to`. -/
def transStatsAux (acc : List (String × Nat)) : List HistoryEntry → List (String × Nat)
  | a :: b :: rest =>
    transStatsAux (bumpBy (· + ·) 0 acc (a.mode ++ " -> " ++ b.mode) 1) (b :: rest)
  | _ => acc

/-- `calculateTransitionStats` entry point. -/
def calculateTransitionStats (history : List HistoryEntry) : List (String × Nat) :=
  transStatsAux [] history

/-- The pairwise loop of `calculateModeTimeSpent`: each consecutive delta is
attributed to the earlier entry's mode. -/
def timeSpentAux (acc : List (String × Int)) : List HistoryEntry → List (String × Int)
  | a :: b :: rest =>
    timeSpentAux (bumpBy (· + ·) 0 acc a.mode (b.timestamp - a.timestamp)) (b :: rest)
  | _ => acc

/-- `calculateModeTimeSpent` (`mode-history.js`): pairwise deltas plus the
open final interval up to `now`. -/
def calculateModeTimeSpent (history : List HistoryEntry) (now : Int) : List (String × Int) :=
  let base := timeSpentAux [] history
  match history.getLast? with
  | none => base
  | some last => bumpBy (· + ·) 0 base last.mode (now - last.timestamp)

/-- `calculateTimeInCurrentMode` (`mode-history.js`). -/
def calculateTimeInCurrentMode (history : List HistoryEntry) (now : Int) : Int :=
  match history.getLast? with
  | none => 0
  | some last => now - last.timestamp

/-- `findMostUsedMode` (`mode-history.js`): the first mode with the strictly
largest accumulated time; `maxTime` starts at 0, so nothing is selected when
no mode has positive time. -/
def findMostUsedMode (modeTimeSpent : List (String × Int)) : Option String :=
  (modeTimeSpent.foldl
    (fun acc p => if acc.2 < p.2 then (some p.1, p.2) else acc)
    ((none : Option String), (0 : Int))).1

/-- A detected cycle (`identifyModeCycles`). -/
structure ModeCycle where
  pattern : List String
  startIndex : Nat
  length : Nat
deriving DecidableEq

/-- The `(cycleLength, i)` iteration grid of `identifyModeCycles`:
`cycleLength` from 2 to 5, `i` from 0 to `n - 2 * cycleLength` (no
iterations when `2 * cycleLength > n`). -/
def cyclePairsFor (n L : Nat) : List (Nat × Nat) :=
  if 2 * L ≤ n then (List.range (n - 2 * L + 1)).map (fun i => (L, i)) else []

/-- All loop iterations of `identifyModeCycles`, in execution order. -/
def cyclePairs (n : Nat) : List (Nat × Nat) :=
  cyclePairsFor n 2 ++ cyclePairsFor n 3 ++ cyclePairsFor n 4 ++ cyclePairsFor n 5

/-- The loop body of `identifyModeCycles`: compare the `','`-joined slice
with the `','`-joined following slice and record first occurrences of each
joined pattern (`seenPatterns` is the JS `Set` of joined strings). -/
def cyclesAux (s : List String) :
    List (Nat × Nat) → List ModeCycle → List String → List ModeCycle
  | [], cycles, _seen => cycles
  | (L, i) :: rest, cycles, seen =>
    let pattern := (s.drop i).take L
    let patternStr := joinSep "," pattern
    let nextPattern := (s.drop (i + L)).take L
    let nextPatternStr := joinSep "," nextPattern
    if patternStr = nextPatternStr ∧ patternStr ∉ seen then
      cyclesAux s rest (cycles ++ [{ pattern := pattern, startIndex := i, length := L }])
        (patternStr :: seen)
    else
      cyclesAux s rest cycles seen

/-- `identifyModeCycles` (`mode-history.js`). -/
def identifyModeCycles (modeSequence : List String) : List ModeCycle :=
  cyclesAux modeSequence (cyclePairs modeSequence.length) [] []

/-- A ranked pattern (`identifyModePatterns`). -/
structure PatternInfo where
  pattern : List String
  occurrences : Nat
deriving DecidableEq

/-- The `(patternLength, i)` iteration grid of `identifyModePatterns`:
lengths 2 and 3, `i` from 0 to `n - patternLength`. -/
def patternPairsFor (n L : Nat) : List (Nat × Nat) :=
  if L ≤ n then (List.range (n - L + 1)).map (fun i => (L, i)) else []

/-- All loop iterations of `identifyModePatterns`, in execution order. -/
def patternPairs (n : Nat) : List (Nat × Nat) :=
  patternPairsFor n 2 ++ patternPairsFor n 3

/-- The counting loop of `identifyModePatterns`, keyed by the `','`-joined
slice, preserving first-seen key order. -/
def patternCountsAux (s : List String) :
    List (Nat × Nat) → List (String × Nat) → List (String × Nat)
  | [], acc => acc
  | (L, i) :: rest, acc =>
    patternCountsAux s rest (bumpBy (· + ·) 0 acc (joinSep "," ((s.drop i).take L)) 1)

/-- JS `str.split(',')` on the character list (own definition because the
library `splitOn` does not reduce in the kernel). -/
def splitCommaAux (cur : List Char) : List Char → List String
  | [] => [String.mk cur.reverse]
  | c :: rest =>
    if c = ',' then String.mk cur.reverse :: splitCommaAux [] rest
    else splitCommaAux (c :: cur) rest

/-- JS `str.split(',')`. -/
def splitComma (s : String) : List String := splitCommaAux [] s.data

/-- Stable insertion into a count-descending list: an element goes before
the first strictly-smaller count, after equal counts. -/
def insertByCountDesc (x : String × Nat) : List (String × Nat) → List (String × Nat)
  | [] => [x]
  | y :: rest => if y.2 ≤ x.2 then x :: y :: rest else y :: insertByCountDesc x rest

/-- Stable sort by descending count, modelling the source's
`sort((a, b) => b[1] - a[1])` (stable in modern JS engines). -/
def sortByCountDesc : List (String × Nat) → List (String × Nat)
  | [] => []
  | x :: rest => insertByCountDesc x (sortByCountDesc rest)

/-- `identifyModePatterns` (`mode-history.js`): count every contiguous
subsequence of length 2 and 3, keep those occurring more than once, sort by
descending count and recover the pattern by splitting the joined key. -/
def identifyModePatterns (modeSequence : List String) : List PatternInfo :=
  let counts := patternCountsAux modeSequence (patternPairs modeSequence.length) []
  (sortByCountDesc (counts.filter (fun p => 1 < p.2))).map
    (fun p => { pattern := splitComma p.1, occurrences := p.2 })

/-- The `summary` object of `getFullHistory`. -/
structure HistorySummary where
  totalTransitions : Int
  currentMode : Mode
  timeInCurrentMode : Int
  modeTimeSpent : List (String × Int)
  transitionStats : List (String × Nat)
  mostUsedMode : Option Mode
deriving DecidableEq

/-- The `history` payload of `getFullHistory`. -/
structure HistoryData where
  entries : List HistoryEntry
  summary : HistorySummary
deriving DecidableEq

/-- The result object of `getFullHistory`. -/
structure HistoryResult where
  success : Bool
  message : String
  history : Option HistoryData := none
deriving DecidableEq

/-- `getFullHistory` (`mode-history.js`): the raw entries plus derived
summary statistics. -/
def getFullHistory (cfg : Config) (taskId : String) (store : Store) (now : Int) :
    HistoryResult × Store :=
  let g := getState cfg taskId store now
  match g.1.state with
  | none =>
    ({ success := false, message := "获取历史记录失败: 无法获取任务 #" ++ taskId ++ " 的状态" }, g.2)
  | some state =>
    let history := state.modeHistory
    let modeTimeSpent := calculateModeTimeSpent history now
    ({ success := true
       message := "获取任务 #" ++ taskId ++ " 的历史记录成功"
       history := some
         { entries := history
           summary :=
             { totalTransitions := (history.length : Int) - 1
               currentMode := state.currentMode
               timeInCurrentMode := calculateTimeInCurrentMode history now
               modeTimeSpent := modeTimeSpent
               transitionStats := calculateTransitionStats history
               mostUsedMode := findMostUsedMode modeTimeSpent } } }, g.2)

/-- The `trends` payload of `getModeTrends`. -/
structure Trends where
  modeFrequency : List (String × Nat)
  modeCycles : List ModeCycle
  modePatterns : List PatternInfo
  cycleCount : Nat
  mostCommonPattern : Option PatternInfo
deriving DecidableEq

/-- The result object of `getModeTrends`. -/
structure TrendsResult where
  success : Bool
  message : String
  trends : Option Trends := none
deriving DecidableEq

/-- `getModeTrends` (`mode-history.js`): frequency, cycles and ranked
patterns over the mode sequence of the history. -/
def getModeTrends (cfg : Config) (taskId : String) (store : Store) (now : Int) :
    TrendsResult × Store :=
  let h := getFullHistory cfg taskId store now
  match h.1.history with
  | none =>
    ({ success := false, message := "获取模式趋势分析失败: 获取任务 #" ++ taskId ++ " 的历史记录失败" }, h.2)
  | some hd =>
    let modeSequence := hd.entries.map (fun e => e.mode)
    let modeFrequency := modeSequence.foldl (fun acc m => bumpBy (· + ·) 0 acc m 1) []
    let modeCycles := identifyModeCycles modeSequence
    let modePatterns := identifyModePatterns modeSequence
    ({ success := true
       message := "获取任务 #" ++ taskId ++ " 的模式趋势分析成功"
       trends := some
         { modeFrequency := modeFrequency
           modeCycles := modeCycles
           modePatterns := modePatterns
           cycleCount := modeCycles.length
           mostCommonPattern := modePatterns.head? } }, h.2)

/-- The `progress` payload of `getModeProgress`.  `percentage` is the exact
rational value of the JS float `(completedItems / totalItems) * 100`. -/
structure ModeProgress where
  mode : Mode
  totalItems : Nat
  completedItems : Nat
  percentage : ℚ
  isComplete : Bool
deriving DecidableEq

/-- The result object of `getModeProgress`. -/
structure ProgressResult where
  success : Bool
  message : String
  progress : Option ModeProgress := none
deriving DecidableEq

/-- `getModeProgress` (`modeManager.js`): checklist completion of one mode;
an unknown mode key is the thrown `模式不存在` error. -/
def getModeProgress (cfg : Config) (taskId : String) (mode : Mode)
    (store : Store) (now : Int) : ProgressResult × Store :=
  let g := getState cfg taskId store now
  match g.1.state with
  | none =>
    ({ success := false
       message := "获取模式进度失败: 无法获取任务 #" ++ taskId ++ " 的当前状态" }, g.2)
  | some state =>
    match assocLookup state.checklistProgress mode with
    | none => ({ success := false, message := "获取模式进度失败: 模式不存在: " ++ mode }, g.2)
    | some checklist =>
      let totalItems := checklist.length
      let completedItems := (checklist.filter (fun item => item.completed)).length
      let progressPercentage : ℚ :=
        if 0 < totalItems then ((completedItems : ℚ) / (totalItems : ℚ)) * 100 else 0
      ({ success := true
         message := "获取模式进度成功: " ++ mode
         progress := some
           { mode := mode
             totalItems := totalItems
             completedItems := completedItems
             percentage := progressPercentage
             isComplete := decide (progressPercentage = 100) } }, g.2)

/-- The `mode` field of a recommendation: a single mode, `null`, or the
whole array of options. -/
inductive RecMode where
  | one (m : Mode)
  | noMode
  | many (ms : List Mode)
deriving DecidableEq

/-- Structural embedding of the `reason` strings built by
`getNextRecommendedMode`; each constructor corresponds verbatim to one
template:
`incomplete`: 当前模式 m 尚未完成（pct%）;
`noNextModes`: 模式 m 没有定义后续模式选项;
`nextStep`: 这是 m 模式完成后的下一个推荐步骤;
`historicalPattern`: 基于过去的模式使用历史，在 cur 之后通常使用 nxt;
`multipleOptions`: 基于当前模式完成情况，有多个可能的后续模式. -/
inductive RecReason where
  | incomplete (m : Mode) (pct : ℚ)
  | noNextModes (m : Mode)
  | nextStep (m : Mode)
  | historicalPattern (cur nxt : Mode)
  | multipleOptions
deriving DecidableEq

/-- The `recommendation` payload of `getNextRecommendedMode`. -/
structure Recommendation where
  mode : RecMode
  reason : RecReason
  primaryRecommendation : Option Mode := none
deriving DecidableEq

/-- The result object of `getNextRecommendedMode`. -/
structure RecResult where
  success : Bool
  message : String
  recommendation : Option Recommendation := none
deriving DecidableEq

/-- The inner `for` loop of the multi-option branch of
`getNextRecommendedMode`: the first adjacent pair of the most common
pattern whose first component is the current mode and whose second is an
allowed option. -/
def scanPattern (currentMode : Mode) (options : List Mode) : List Mode → Option Mode
  | a :: b :: rest =>
    if a = currentMode ∧ b ∈ options then some b
    else scanPattern currentMode options (b :: rest)
  | _ => none

/-- `getNextRecommendedMode` (`modeManager.js`): stay while the current
checklist is incomplete; otherwise recommend by the configured `nextModes`
(none / single / pattern-matched / all options with the first as primary). -/
def getNextRecommendedMode (cfg : Config) (taskId : String) (store : Store) (now : Int) :
    RecResult × Store :=
  let g := getState cfg taskId store now
  match g.1.state with
  | none =>
    ({ success := false
       message := "获取推荐模式失败: 无法获取任务 #" ++ taskId ++ " 的当前状态" }, g.2)
  | some state =>
    let currentMode := state.currentMode
    let p := getModeProgress cfg taskId currentMode g.2 now
    match p.1.progress with
    | none =>
      ({ success := false
         message := "获取推荐模式失败: 无法获取当前模式 " ++ currentMode ++ " 的进度" }, p.2)
    | some progress =>
      if progress.isComplete = false then
        ({ success := true
           message := "建议继续当前模式: " ++ currentMode
           recommendation := some
             { mode := RecMode.one currentMode
               reason := RecReason.incomplete currentMode progress.percentage } }, p.2)
      else
        let nextModeOptions := ((assocLookup cfg.modes currentMode).map (fun mc => mc.nextModes)).getD []
        match nextModeOptions with
        | [] =>
          ({ success := true
             message := "当前模式没有下一步推荐"
             recommendation := some
               { mode := RecMode.noMode, reason := RecReason.noNextModes currentMode } }, p.2)
        | [only] =>
          ({ success := true
             message := "推荐下一个模式: " ++ only
             recommendation := some
               { mode := RecMode.one only, reason := RecReason.nextStep currentMode } }, p.2)
        | _ =>
          let t := getModeTrends cfg taskId p.2 now
          let viaPattern : Option Mode :=
            if t.1.success then
              match t.1.trends with
              | some trends =>
                match trends.mostCommonPattern with
                | some mcp => scanPattern currentMode nextModeOptions mcp.pattern
                | none => none
              | none => none
            else none
          match viaPattern with
          | some nxt =>
            ({ success := true
               message := "基于历史模式推荐下一个模式: " ++ nxt
               recommendation := some
                 { mode := RecMode.one nxt
                   reason := RecReason.historicalPattern currentMode nxt } }, t.2)
          | none =>
            ({ success := true
               message := "推荐多个可能的后续模式"
               recommendation := some
                 { mode := RecMode.many nextModeOptions
                   reason := RecReason.multipleOptions
                   primaryRecommendation := nextModeOptions.head? } }, t.2)

/-! ## Concrete fixtures used by witnesses and counterexamples -/

/-- A store holding exactly the freshly initialized state of task `t1`
(created at time 0 under the default configuration). -/
def sampleStore : Store := (createState defaultConfig "t1" {} emptyStore 0).2

/-- A persisted state whose `research` checklist is fully completed and
whose only history entry is 10 minutes old at time 600000: all three
built-in rules pass on it for `research -> innovate`. -/
def c5State : R5State :=
  { taskId := "t1", currentMode := "research"
    modeHistory := [{ mode := "research", timestamp := 0, note := "" }]
    checklistProgress := [("research",
      [{ text := "a", completed := true }, { text := "b", completed := true },
       { text := "c", completed := true }, { text := "d", completed := true },
       { text := "e", completed := true }])]
    notes := [], artifacts := [], metadata := { createdAt := 0, updatedAt := 0 } }

/-- Store for the aggregate-validity counterexample. -/
def c5Store : Store := saveState "t1" c5State emptyStore

/-- A custom rule that reports `isValid: false` with no `severity` field. -/
def c5Rule : Rule :=
  { id := "custom-no-severity", name := "自定义规则", description := ""
    condition := fun _ _ _ _ _ _ => .ok { isValid := false, message := "失败但没有严重级别" } }

/-- The default registry extended with `c5Rule`. -/
def c5Registry : Registry := { default := defaultRegistry.default, custom := [c5Rule] }

/-- A state that left `research`, came back to it, and whose *most recent*
`research` entry is only 1 minute old at time 1260000 while the *first*
`research` entry is 21 minutes old. -/
def c6State : R5State :=
  { taskId := "t1", currentMode := "research"
    modeHistory :=
      [{ mode := "research", timestamp := 0, note := "" },
       { mode := "plan", timestamp := 600000, note := "" },
       { mode := "research", timestamp := 1200000, note := "" }]
    checklistProgress := [], notes := [], artifacts := []
    metadata := { createdAt := 0, updatedAt := 1200000 } }

/-- Store for the dwell-time evaluation. -/
def c6Store : Store := saveState "t1" c6State emptyStore

/-- A non-default persisted state (current mode `plan`, two history
entries) that `createState` is called on top of. -/
def c7State : R5State :=
  { taskId := "t1", currentMode := "plan"
    modeHistory := [{ mode := "research", timestamp := 0, note := "init" },
                    { mode := "plan", timestamp := 100, note := "go" }]
    checklistProgress := [("research", [{ text := "x", completed := true }])]
    notes := [], artifacts := [], metadata := { createdAt := 0, updatedAt := 100 } }

/-- Store already holding `c7State` for task `t1`. -/
def c7Store : Store := saveState "t1" c7State emptyStore

/-- A rule whose condition always throws. -/
def badRule : Rule :=
  { id := "bad", name := "坏规则", description := ""
    condition := fun _ _ _ _ _ _ => .error "boom" }

/-- Hooks with a single throwing `afterModeSwitch` callback. -/
def c8Hooks : Hooks := { afterModeSwitch := [fun _ => .error "afterhook挂钩故障"] }

/-- A state whose current mode has an *empty* checklist. -/
def c10State : R5State :=
  { taskId := "t1", currentMode := "research"
    modeHistory := [{ mode := "research", timestamp := 0, note := "" }]
    checklistProgress := [("research", [])]
    notes := [], artifacts := [], metadata := { createdAt := 0, updatedAt := 0 } }

/-- Store holding `c10State`. -/
def c10Store : Store := saveState "t1" c10State emptyStore

/-! ## Aggregation lemmas (rule engine) -/

/-- A valid per-rule outcome leaves the aggregation accumulator unchanged. -/
theorem aggStep_of_valid (w : Bool) (acc : AggState) (r : RuleResult)
    (h : r.isValid = true) : aggStep w acc r = acc := by
  simp [aggStep, h]

/-- Appending a valid outcome does not change the aggregate report. -/
theorem aggregate_append_valid (w : Bool) (rs : List RuleResult) (r : RuleResult)
    (h : r.isValid = true) :
    aggregateResults w (rs ++ [r]) = aggregateResults w rs := by
  unfold aggregateResults
  rw [List.foldl_append]
  simp [aggStep_of_valid w _ r h]

/-- Characterization of the `isValid` flag computed by the result-processing
fold: it ends up `false` exactly when it started `false`, or some invalid
outcome carries a severity other than `warning` (including no severity at
all), or warnings are treated as errors and some invalid outcome is a
warning. -/
theorem aggregate_foldl_isValid (w : Bool) (rs : List RuleResult) (acc : AggState) :
    ((rs.foldl (aggStep w) acc).isValid = false) ↔
      (acc.isValid = false ∨
       (∃ r ∈ rs, r.isValid = false ∧ r.severity ≠ some "warning") ∨
       (w = true ∧ ∃ r ∈ rs, r.isValid = false ∧ r.severity = some "warning")) := by
  induction rs generalizing acc with
  | nil => simp
  | cons r rs ih =>
    simp only [List.foldl_cons]
    rw [ih]
    simp only [List.mem_cons, exists_eq_or_imp]
    by_cases hv : r.isValid = true
    · simp [aggStep, hv]
    · have hv' : r.isValid = false := by simpa using hv
      by_cases hs : r.severity = some "warning"
      · cases w with
        | true => simp [aggStep, hv', hs]
        | false => simp [aggStep, hv', hs]
      · by_cases hserr : r.severity = some "error"
        · simp [aggStep, hv', hserr]
        · simp [aggStep, hv', hs, hserr]

/-- C5 counterexample: with a custom rule returning `isValid: false` and no
severity (and every built-in rule passing), the aggregate report is invalid
although no per-rule outcome has `severity = 'error'` and warnings are not
treated as errors — so the claimed iff fails at this input. -/
theorem C5_claim_counterexample :
    ¬ (((validateTransition c5Registry defaultConfig "research" "innovate"
            { taskId := "t1" } false c5Store 600000).isValid = false) ↔
        ((∃ r ∈ (validateTransition c5Registry defaultConfig "research" "innovate"
              { taskId := "t1" } false c5Store 600000).results, r.severity = some "error") ∨
         (false = true ∧ ∃ r ∈ (validateTransition c5Registry defaultConfig "research" "innovate"
              { taskId := "t1" } false c5Store 600000).results, r.severity = some "warning"))) := by
  decide

/-- C5 (amended): the aggregate `isValid` is `false` iff some rule produced
an *invalid* outcome whose severity is not `'warning'` (severity `'error'`
or no/unrecognized severity), or warnings are treated as errors and some
rule produced an invalid `'warning'` outcome.  A valid outcome never flips
the aggregate, whatever its severity. -/
theorem C5_aggregate_isValid_iff (reg : Registry) (cfg : Config) (fromMode toMode : Mode)
    (ctx : RuleContext) (w : Bool) (store : Store) (now : Int) :
    ((validateTransition reg cfg fromMode toMode ctx w store now).isValid = false) ↔
      ((∃ r ∈ (validateTransition reg cfg fromMode toMode ctx w store now).results,
          r.isValid = false ∧ r.severity ≠ some "warning") ∨
       (w = true ∧ ∃ r ∈ (validateTransition reg cfg fromMode toMode ctx w store now).results,
          r.isValid = false ∧ r.severity = some "warning")) := by
  have h := aggregate_foldl_isValid w
    ((reg.default ++ reg.custom).map (fun r => evalRule r cfg fromMode toMode ctx store now))
    { isValid := true, errors := [], warnings := [] }
  simpa [validateTransition, aggregateResults] using h

/-- C2: a rule whose `condition` throws is converted by `validateTransition`
into a passing outcome (`isValid: true`) with an explanatory message, and
registering such a rule changes neither the aggregate validity nor the
collected errors/warnings of any transition validation — fail-open. -/
theorem C2_throwing_rule_fail_open (reg : Registry) (cfg : Config) (fromMode toMode : Mode)
    (ctx : RuleContext) (w : Bool) (store : Store) (now : Int) (rule : Rule) (e : String)
    (h : rule.condition cfg fromMode toMode ctx store now = .error e) :
    (evalRule rule cfg fromMode toMode ctx store now).isValid = true ∧
    (evalRule rule cfg fromMode toMode ctx store now).message = "规则执行出错: " ++ e ∧
    (validateTransition { default := reg.default, custom := reg.custom ++ [rule] }
        cfg fromMode toMode ctx w store now).isValid =
      (validateTransition reg cfg fromMode toMode ctx w store now).isValid ∧
    (validateTransition { default := reg.default, custom := reg.custom ++ [rule] }
        cfg fromMode toMode ctx w store now).errors =
      (validateTransition reg cfg fromMode toMode ctx w store now).errors ∧
    (validateTransition { default := reg.default, custom := reg.custom ++ [rule] }
        cfg fromMode toMode ctx w store now).warnings =
      (validateTransition reg cfg fromMode toMode ctx w store now).warnings := by
  have hev : (evalRule rule cfg fromMode toMode ctx store now).isValid = true := by
    simp [evalRule, h]
  have hassoc : reg.default ++ (reg.custom ++ [rule]) = (reg.default ++ reg.custom) ++ [rule] :=
    (List.append_assoc _ _ _).symm
  have hagg :
      aggregateResults w (((reg.default ++ reg.custom) ++ [rule]).map
          (fun r => evalRule r cfg fromMode toMode ctx store now)) =
        aggregateResults w ((reg.default ++ reg.custom).map
          (fun r => evalRule r cfg fromMode toMode ctx store now)) := by
    rw [List.map_append]
    exact aggregate_append_valid w _ _ hev
  refine ⟨hev, by simp [evalRule, h], ?_, ?_, ?_⟩ <;>
    simp only [validateTransition, hassoc, hagg]

/-- C2 witness: a concrete always-throwing rule at a concrete transition. -/
theorem C2_witness :
    (evalRule badRule defaultConfig "research" "innovate" { taskId := "t1" } emptyStore 0).isValid = true ∧
    (evalRule badRule defaultConfig "research" "innovate" { taskId := "t1" } emptyStore 0).message =
      "规则执行出错: " ++ "boom" ∧
    (validateTransition { default := defaultRegistry.default, custom := defaultRegistry.custom ++ [badRule] }
        defaultConfig "research" "innovate" { taskId := "t1" } false emptyStore 0).isValid =
      (validateTransition defaultRegistry defaultConfig "research" "innovate"
        { taskId := "t1" } false emptyStore 0).isValid ∧
    (validateTransition { default := defaultRegistry.default, custom := defaultRegistry.custom ++ [badRule] }
        defaultConfig "research" "innovate" { taskId := "t1" } false emptyStore 0).errors =
      (validateTransition defaultRegistry defaultConfig "research" "innovate"
        { taskId := "t1" } false emptyStore 0).errors ∧
    (validateTransition { default := defaultRegistry.default, custom := defaultRegistry.custom ++ [badRule] }
        defaultConfig "research" "innovate" { taskId := "t1" } false emptyStore 0).warnings =
      (validateTransition defaultRegistry defaultConfig "research" "innovate"
        { taskId := "t1" } false emptyStore 0).warnings :=
  C2_throwing_rule_fail_open defaultRegistry defaultConfig "research" "innovate"
    { taskId := "t1" } false emptyStore 0 badRule "boom" rfl

/-- C6: the `min-time-spent` rule measures from the *first* history entry of
the source mode (JS `Array.find`), not the most recent one.  On a history
that re-entered `research` one minute ago (but first entered it 21 minutes
ago), the rule passes with no warning, although the most recent `research`
entry is far younger than the 5-minute threshold. -/
theorem C6_min_time_uses_first_entry :
    evalRule minTimeSpentRule defaultConfig "research" "innovate" { taskId := "t1" } c6Store 1260000 =
      { ruleId := "min-time-spent", ruleName := "最短停留时间规则", isValid := true,
        message := "模式停留时间足够" } ∧
    ((c6State.modeHistory.find? (fun h => h.mode = "research")).map
        (fun h => (1260000 : Int) - h.timestamp)) = some 1260000 ∧
    ((c6State.modeHistory.reverse.find? (fun h => h.mode = "research")).map
        (fun h => (1260000 : Int) - h.timestamp)) = some 60000 ∧
    (60000 : Int) < 5 * 60 * 1000 := by
  exact ⟨by decide, by decide, by decide, by decide⟩

/-- C7 counterexample: with a state already persisted for `t1`,
`createState` succeeds (no `AlreadyExists` failure) and replaces the
persisted state with a freshly initialized one. -/
theorem C7_claim_counterexample :
    (createState defaultConfig "t1" {} c7Store 500).1.success = true ∧
    (createState defaultConfig "t1" {} c7Store 500).2 "t1" ≠ some c7State ∧
    (createState defaultConfig "t1" {} c7Store 500).2 "t1" =
      some (freshState defaultConfig "t1" {} 500) := by
  exact ⟨rfl, by decide, by decide⟩

/-- C7 (amended): `createState` performs no existence check: even when a
state is already persisted for the task id, it reports success and
overwrites the stored state with the fresh default-initialized state. -/
theorem C7_create_overwrites (cfg : Config) (taskId : String) (opts : CreateOptions)
    (store : Store) (now : Int) (s₀ : R5State) (h : store taskId = some s₀) :
    (createState cfg taskId opts store now).1.success = true ∧
    (createState cfg taskId opts store now).2 taskId = some (freshState cfg taskId opts now) := by
  refine ⟨rfl, ?_⟩
  simp [createState, saveState]

/-- C7 witness: the amended statement at the concrete pre-populated store. -/
theorem C7_witness :
    (createState defaultConfig "t1" {} c7Store 500).1.success = true ∧
    (createState defaultConfig "t1" {} c7Store 500).2 "t1" =
      some (freshState defaultConfig "t1" {} 500) :=
  C7_create_overwrites defaultConfig "t1" {} c7Store 500 c7State rfl

/-- C4: when the stored state is already in the requested mode, `switchMode`
returns success with the stored state completely unchanged (including
`updatedAt`), leaves the store untouched, and returns the same thing for
*every* rule registry and every hook registry — no validation and no hooks
are involved in the result. -/
theorem C4_noop_same_mode (reg : Registry) (hooks : Hooks) (cfg : Config) (mode : Mode)
    (opts : SwitchOptions) (store : Store) (now : Int) (s : R5State)
    (hid : ¬ opts.taskId = "") (hstore : store opts.taskId = some s)
    (hmode : s.currentMode = mode) :
    switchMode reg hooks cfg mode opts store now =
      ({ success := true
         message := "任务 #" ++ opts.taskId ++ " 已经处于 " ++ mode ++ " 模式"
         state := some s }, store) := by
  simp [switchMode, getState, hstore, hid, hmode]

/-- C4 witness: a no-op switch to `research` on the freshly created state. -/
theorem C4_witness :
    switchMode defaultRegistry {} defaultConfig "research" { taskId := "t1" } sampleStore 99 =
      ({ success := true
         message := "任务 #t1 已经处于 research 模式"
         state := some (freshState defaultConfig "t1" {} 0) }, sampleStore) :=
  C4_noop_same_mode defaultRegistry {} defaultConfig "research" { taskId := "t1" }
    sampleStore 99 (freshState defaultConfig "t1" {} 0) (by decide) rfl rfl

/-- The state produced by a successful `updateModeHistory`: history entry
appended, `currentMode` switched, `updatedAt` refreshed. -/
def historyAppended (s : R5State) (mode : Mode) (note : String) (now : Int) : R5State :=
  { taskId := s.taskId
    currentMode := mode
    modeHistory := s.modeHistory ++ [{ mode := mode, timestamp := now, note := note }]
    checklistProgress := s.checklistProgress
    notes := s.notes
    artifacts := s.artifacts
    metadata := { createdAt := s.metadata.createdAt, updatedAt := now } }

/-- `updateModeHistory` on a task whose state is persisted: success, with
the appended state saved. -/
theorem updateModeHistory_found (cfg : Config) (taskId : String) (mode : Mode) (note : String)
    (store : Store) (now : Int) (s : R5State) (h : store taskId = some s) :
    updateModeHistory cfg taskId mode note store now =
      ({ success := true
         message := "RIPER-5状态更新成功: 任务 #" ++ taskId
         state := some (historyAppended s mode note now) },
       saveState taskId (historyAppended s mode note now) store) := by
  simp [updateModeHistory, updateState, getState, h, applyUpdates, historyAppended]

/-- C8 counterexample to the claim as stated: with a throwing
`afterModeSwitch` hook, a forced switch persists the appended history entry
(the transition has committed) but `switchMode` reports *failure*, not
success. -/
theorem C8_claim_counterexample :
    ¬ ((switchMode defaultRegistry c8Hooks defaultConfig "innovate"
          { taskId := "t1", force := true } sampleStore 0).1.success = true) ∧
    (((switchMode defaultRegistry c8Hooks defaultConfig "innovate"
          { taskId := "t1", force := true } sampleStore 0).2 "t1").map
        (fun s => (s.currentMode, s.modeHistory.length))) = some ("innovate", 2) := by
  exact ⟨by decide, by decide⟩

/-- C8 (amended): a throwing `beforeModeSwitch` hook aborts the transition —
the store is untouched and `switchMode` reports failure with the hook's
error; a throwing `afterModeSwitch` hook does not roll anything back — the
appended history entry remains persisted — but `switchMode` nevertheless
reports failure (the rejection lands in the outer catch), not success. -/
theorem C8_hook_error_policy (reg : Registry) (hooks : Hooks) (cfg : Config) (mode : Mode)
    (opts : SwitchOptions) (store : Store) (now : Int) (s : R5State) (e : String)
    (hid : ¬ opts.taskId = "") (hstore : store opts.taskId = some s)
    (hmode : ¬ s.currentMode = mode) (hforce : opts.force = true) :
    ((runHooks hooks.beforeModeSwitch
        { taskId := opts.taskId, fromMode := s.currentMode, toMode := mode, state := some s } =
          .error e →
      switchMode reg hooks cfg mode opts store now =
        ({ success := false, message := "模式切换失败: " ++ e }, store)) ∧
     (runHooks hooks.beforeModeSwitch
        { taskId := opts.taskId, fromMode := s.currentMode, toMode := mode, state := some s } =
          .ok () →
      runHooks hooks.afterModeSwitch
        { taskId := opts.taskId, fromMode := s.currentMode, toMode := mode,
          state := some (historyAppended s mode opts.note now) } = .error e →
      (switchMode reg hooks cfg mode opts store now).1.success = false ∧
      (switchMode reg hooks cfg mode opts store now).2 opts.taskId =
        some (historyAppended s mode opts.note now))) := by
  constructor
  · intro hb
    simp [switchMode, getState, hstore, hid, hmode, hforce, hb]
  · intro hb ha
    have hu := updateModeHistory_found cfg opts.taskId mode opts.note store now s hstore
    constructor
    · simp [switchMode, getState, hstore, hid, hmode, hforce, hb, hu, ha]
    · simp [switchMode, getState, hstore, hid, hmode, hforce, hb, hu, ha, saveState]

/-- Hooks with a single throwing `beforeModeSwitch` callback. -/
def c8BeforeHooks : Hooks := { beforeModeSwitch := [fun _ => .error "beforehook挂钩故障"] }

/-- C8 witness: both halves of the amended statement at concrete inputs —
a throwing before-hook leaves the store untouched and fails; a throwing
after-hook leaves the appended state persisted and fails. -/
theorem C8_witness :
    (switchMode defaultRegistry c8BeforeHooks defaultConfig "innovate"
        { taskId := "t1", force := true } sampleStore 0 =
      ({ success := false, message := "模式切换失败: " ++ "beforehook挂钩故障" }, sampleStore)) ∧
    ((switchMode defaultRegistry c8Hooks defaultConfig "innovate"
        { taskId := "t1", force := true } sampleStore 0).1.success = false ∧
     (switchMode defaultRegistry c8Hooks defaultConfig "innovate"
        { taskId := "t1", force := true } sampleStore 0).2 "t1" =
       some (historyAppended (freshState defaultConfig "t1" {} 0) "innovate" "" 0)) :=
  ⟨(C8_hook_error_policy defaultRegistry c8BeforeHooks defaultConfig "innovate"
      { taskId := "t1", force := true } sampleStore 0 (freshState defaultConfig "t1" {} 0)
      "beforehook挂钩故障" (by decide) rfl (by decide) rfl).1 rfl,
   (C8_hook_error_policy defaultRegistry c8Hooks defaultConfig "innovate"
      { taskId := "t1", force := true } sampleStore 0 (freshState defaultConfig "t1" {} 0)
      "afterhook挂钩故障" (by decide) rfl (by decide) rfl).2 rfl rfl⟩

/-- C3: the `valid-transition-path` rule yields an invalid outcome with
severity `'error'` exactly when the source mode's configured `nextModes` is
non-empty and does not contain the target (an empty list is unconstrained);
concretely, `switchMode` from `research` (allowed: `innovate`, `plan`) to
`execute` without `force` is rejected with exactly this rule in the error
list and the store untouched, while the same call with `force := true`
succeeds and appends the history entry — validation is skipped entirely. -/
theorem C3_valid_transition_path :
    (∀ (cfg : Config) (fromMode toMode : Mode) (ctx : RuleContext) (store : Store) (now : Int),
      (((evalRule validTransitionRule cfg fromMode toMode ctx store now).severity = some "error" ∧
        (evalRule validTransitionRule cfg fromMode toMode ctx store now).isValid = false) ↔
        (((assocLookup cfg.modes fromMode).map (fun mc => mc.nextModes)).getD [] ≠ [] ∧
         toMode ∉ ((assocLookup cfg.modes fromMode).map (fun mc => mc.nextModes)).getD []))) ∧
    (switchMode defaultRegistry {} defaultConfig "execute" { taskId := "t1" } sampleStore 0).1.success
      = false ∧
    ((switchMode defaultRegistry {} defaultConfig "execute" { taskId := "t1" } sampleStore 0).1.validationResult.map
        (fun v => v.errors.map (fun r => r.ruleId))) = some ["valid-transition-path"] ∧
    (switchMode defaultRegistry {} defaultConfig "execute" { taskId := "t1" } sampleStore 0).2
      = sampleStore ∧
    (switchMode defaultRegistry {} defaultConfig "execute"
        { taskId := "t1", force := true } sampleStore 0).1.success = true ∧
    (((switchMode defaultRegistry {} defaultConfig "execute"
        { taskId := "t1", force := true } sampleStore 0).2 "t1").map
        (fun s => (s.currentMode, s.modeHistory.length))) = some ("execute", 2) := by
  refine ⟨?_, by decide, by decide, rfl, by decide, by decide⟩
  intro cfg fromMode toMode ctx store now
  by_cases h0 : ((assocLookup cfg.modes fromMode).map (fun mc => mc.nextModes)).getD [] = []
  · simp [evalRule, validTransitionRule, h0]
  · by_cases hm : toMode ∈ ((assocLookup cfg.modes fromMode).map (fun mc => mc.nextModes)).getD []
    · simp [evalRule, validTransitionRule, h0, hm, List.length_eq_zero]
    · simp [evalRule, validTransitionRule, h0, hm, List.length_eq_zero]

/-- C10: when the current mode's checklist is empty, `getModeProgress`
reports 0 items, percentage 0 and `isComplete := false`, and consequently
`getNextRecommendedMode` recommends staying in the current mode with the
incomplete reason (it never reaches the `nextModes` branches). -/
theorem C10_empty_checklist_recommendation (cfg : Config) (taskId : String)
    (store : Store) (now : Int) (s : R5State) (m : Mode)
    (hstore : store taskId = some s) (hmode : s.currentMode = m)
    (hcl : assocLookup s.checklistProgress m = some []) :
    getModeProgress cfg taskId m store now =
      ({ success := true
         message := "获取模式进度成功: " ++ m
         progress := some { mode := m, totalItems := 0, completedItems := 0,
                            percentage := 0, isComplete := false } }, store) ∧
    getNextRecommendedMode cfg taskId store now =
      ({ success := true
         message := "建议继续当前模式: " ++ m
         recommendation := some { mode := RecMode.one m
                                  reason := RecReason.incomplete m 0 } }, store) := by
  have hq : decide ((0 : ℚ) = 100) = false := by decide
  have h1 : getModeProgress cfg taskId m store now =
      ({ success := true
         message := "获取模式进度成功: " ++ m
         progress := some { mode := m, totalItems := 0, completedItems := 0,
                            percentage := 0, isComplete := false } }, store) := by
    simp [getModeProgress, getState, hstore, hcl, hq]
  refine ⟨h1, ?_⟩
  simp [getNextRecommendedMode, getState, hstore, hmode, h1]

/-- C10 witness: the concrete state whose `research` checklist is empty. -/
theorem C10_witness :
    getModeProgress defaultConfig "t1" "research" c10Store 99 =
      ({ success := true
         message := "获取模式进度成功: " ++ "research"
         progress := some { mode := "research", totalItems := 0, completedItems := 0,
                            percentage := 0, isComplete := false } }, c10Store) ∧
    getNextRecommendedMode defaultConfig "t1" c10Store 99 =
      ({ success := true
         message := "建议继续当前模式: " ++ "research"
         recommendation := some { mode := RecMode.one "research"
                                  reason := RecReason.incomplete "research" 0 } }, c10Store) :=
  C10_empty_checklist_recommendation defaultConfig "t1" c10Store 99 c10State "research"
    rfl rfl rfl

/-! ## Reachability and the current-mode/history invariant -/

/-- The invariant of one workflow state: `currentMode` equals the mode of
the last history entry (which in particular exists). -/
def historyInv (s : R5State) : Prop :=
  (s.modeHistory.getLast?).map (fun e => e.mode) = some s.currentMode

/-- The invariant over a whole store. -/
def StoreInv (store : Store) : Prop :=
  ∀ taskId s, store taskId = some s → historyInv s

/-- Stores reachable from the empty store by the persisted-state-mutating
operations of the engine: `createState`, lazy-creating `getState`,
`switchMode` (with arbitrary registries and hooks), `updateModeHistory`,
checklist/note/artifact updates, and history annotation. -/
inductive ReachableStore : Store → Prop where
  | empty : ReachableStore emptyStore
  | create (cfg : Config) (taskId : String) (opts : CreateOptions) (now : Int) (st : Store) :
      ReachableStore st → ReachableStore (createState cfg taskId opts st now).2
  | get (cfg : Config) (taskId : String) (now : Int) (st : Store) :
      ReachableStore st → ReachableStore (getState cfg taskId st now).2
  | switchPhase (reg : Registry) (hooks : Hooks) (cfg : Config) (mode : Mode)
      (opts : SwitchOptions) (now : Int) (st : Store) :
      ReachableStore st → ReachableStore (switchMode reg hooks cfg mode opts st now).2
  | updHistory (cfg : Config) (taskId : String) (mode : Mode) (note : String) (now : Int)
      (st : Store) :
      ReachableStore st → ReachableStore (updateModeHistory cfg taskId mode note st now).2
  | checklist (cfg : Config) (taskId : String) (mode : Mode) (itemIndex : Nat)
      (completed : Bool) (now : Int) (st : Store) :
      ReachableStore st → ReachableStore (updateChecklistItem cfg taskId mode itemIndex completed st now).2
  | note (cfg : Config) (taskId : String) (mode : Mode) (txt : String) (append : Bool)
      (now : Int) (st : Store) :
      ReachableStore st → ReachableStore (updateNote cfg taskId mode txt append st now).2
  | artifact (cfg : Config) (taskId : String) (mode : Mode) (fields : List (String × String))
      (entropy : String) (now : Int) (st : Store) :
      ReachableStore st → ReachableStore (addArtifact cfg taskId mode fields entropy st now).2
  | comment (cfg : Config) (taskId : String) (historyIndex : Nat) (c : String) (now : Int)
      (st : Store) :
      ReachableStore st → ReachableStore (addCommentToHistory cfg taskId historyIndex c st now).2

/-- A fresh state satisfies the invariant. -/
theorem historyInv_fresh (cfg : Config) (taskId : String) (opts : CreateOptions) (now : Int) :
    historyInv (freshState cfg taskId opts now) := by
  simp [historyInv, freshState]

/-- The empty store satisfies the invariant. -/
theorem storeInv_empty : StoreInv emptyStore := by
  intro t s h
  simp [emptyStore] at h

/-- Saving an invariant-preserving state preserves the store invariant. -/
theorem storeInv_save (store : Store) (taskId : String) (s : R5State)
    (hstore : StoreInv store) (hs : historyInv s) : StoreInv (saveState taskId s store) := by
  intro t s' h
  by_cases ht : t = taskId
  · simp [saveState, ht] at h
    exact h ▸ hs
  · simp [saveState, ht] at h
    exact hstore t s' h

/-- `createState` preserves the store invariant. -/
theorem createState_inv (cfg : Config) (taskId : String) (opts : CreateOptions)
    (st : Store) (now : Int) (h : StoreInv st) :
    StoreInv (createState cfg taskId opts st now).2 :=
  storeInv_save st taskId _ h (historyInv_fresh cfg taskId opts now)

/-- `getState` preserves the store invariant. -/
theorem getState_inv (cfg : Config) (taskId : String) (st : Store) (now : Int)
    (h : StoreInv st) : StoreInv (getState cfg taskId st now).2 := by
  cases hs : st taskId with
  | some s => simpa [getState, hs] using h
  | none =>
    have := createState_inv cfg taskId {} st now h
    simpa [getState, hs] using this

/-- Any state returned by `getState` satisfies the invariant. -/
theorem getState_state_inv (cfg : Config) (taskId : String) (st : Store) (now : Int)
    (s : R5State) (h : StoreInv st) (hres : (getState cfg taskId st now).1.state = some s) :
    historyInv s := by
  cases hs : st taskId with
  | some s0 =>
    rw [getState, hs] at hres
    simp at hres
    exact hres ▸ h taskId s0 hs
  | none =>
    rw [getState, hs] at hres
    simp [createState] at hres
    exact hres ▸ historyInv_fresh cfg taskId {} now

/-- `updateState` preserves the store invariant provided the update touches
`currentMode` and `modeHistory` either not at all or consistently. -/
theorem updateState_inv (cfg : Config) (taskId : String) (upd : StateUpdates)
    (st : Store) (now : Int) (h : StoreInv st)
    (hupd : (upd.currentMode = none ∧ upd.modeHistory = none) ∨
            (∃ m hist, upd.currentMode = some m ∧ upd.modeHistory = some hist ∧
               (hist.getLast?).map (fun e => e.mode) = some m)) :
    StoreInv (updateState cfg taskId upd st now).2 := by
  cases hs : (getState cfg taskId st now).1.state with
  | none =>
    simpa [updateState, hs] using getState_inv cfg taskId st now h
  | some s =>
    have hsi := getState_state_inv cfg taskId st now s h hs
    have hinv : historyInv (applyUpdates s upd now) := by
      rcases hupd with ⟨h1, h2⟩ | ⟨m, hist, h1, h2, h3⟩
      · simpa [historyInv, applyUpdates, h1, h2] using hsi
      · simp [historyInv, applyUpdates, h1, h2, h3]
    simpa [updateState, hs] using
      storeInv_save _ taskId _ (getState_inv cfg taskId st now h) hinv

/-- `updateModeHistory` preserves the store invariant. -/
theorem updateModeHistory_inv (cfg : Config) (taskId : String) (mode : Mode) (note : String)
    (st : Store) (now : Int) (h : StoreInv st) :
    StoreInv (updateModeHistory cfg taskId mode note st now).2 := by
  cases hs : (getState cfg taskId st now).1.state with
  | none =>
    simpa [updateModeHistory, hs] using getState_inv cfg taskId st now h
  | some s =>
    have := updateState_inv cfg taskId
      { currentMode := some mode
        modeHistory := some (s.modeHistory ++ [{ mode := mode, timestamp := now, note := note }]) }
      (getState cfg taskId st now).2 now (getState_inv cfg taskId st now h)
      (Or.inr ⟨mode, _, rfl, rfl, by simp⟩)
    simpa [updateModeHistory, hs] using this

/-- `updateChecklistItem` preserves the store invariant. -/
theorem updateChecklistItem_inv (cfg : Config) (taskId : String) (mode : Mode)
    (itemIndex : Nat) (completed : Bool) (st : Store) (now : Int) (h : StoreInv st) :
    StoreInv (updateChecklistItem cfg taskId mode itemIndex completed st now).2 := by
  have hg := getState_inv cfg taskId st now h
  cases hs : (getState cfg taskId st now).1.state with
  | none => simpa [updateChecklistItem, hs] using hg
  | some s =>
    cases hcl : assocLookup s.checklistProgress mode with
    | none => simpa [updateChecklistItem, hs, hcl] using hg
    | some checklist =>
      by_cases hlen : itemIndex < checklist.length
      · have := updateState_inv cfg taskId
          { checklistProgress := some (assocSet s.checklistProgress mode
              (listModify (fun item => { item with completed := completed }) checklist itemIndex)) }
          (getState cfg taskId st now).2 now hg (Or.inl ⟨rfl, rfl⟩)
        simpa [updateChecklistItem, hs, hcl, hlen] using this
      · simpa [updateChecklistItem, hs, hcl, hlen] using hg

/-- `updateNote` preserves the store invariant. -/
theorem updateNote_inv (cfg : Config) (taskId : String) (mode : Mode) (txt : String)
    (append : Bool) (st : Store) (now : Int) (h : StoreInv st) :
    StoreInv (updateNote cfg taskId mode txt append st now).2 := by
  have hg := getState_inv cfg taskId st now h
  cases hs : (getState cfg taskId st now).1.state with
  | none => simpa [updateNote, hs] using hg
  | some s =>
    cases hn : assocLookup s.notes mode with
    | none => simpa [updateNote, hs, hn] using hg
    | some old =>
      have := updateState_inv cfg taskId
        { notes := some (assocSet s.notes mode
            (if append then old ++ "\n\n--- " ++ toString now ++ " ---\n" ++ txt else txt)) }
        (getState cfg taskId st now).2 now hg (Or.inl ⟨rfl, rfl⟩)
      simpa [updateNote, hs, hn] using this

/-- `addArtifact` preserves the store invariant. -/
theorem addArtifact_inv (cfg : Config) (taskId : String) (mode : Mode)
    (fields : List (String × String)) (entropy : String) (st : Store) (now : Int)
    (h : StoreInv st) : StoreInv (addArtifact cfg taskId mode fields entropy st now).2 := by
  have hg := getState_inv cfg taskId st now h
  cases hs : (getState cfg taskId st now).1.state with
  | none => simpa [addArtifact, hs] using hg
  | some s =>
    cases ha : assocLookup s.artifacts mode with
    | none => simpa [addArtifact, hs, ha] using hg
    | some l =>
      have := updateState_inv cfg taskId
        { artifacts := some (assocSet s.artifacts mode
            (l ++ [{ fields := fields, id := toString now ++ "-" ++ entropy, createdAt := now }])) }
        (getState cfg taskId st now).2 now hg (Or.inl ⟨rfl, rfl⟩)
      simpa [addArtifact, hs, ha] using this

/-- Setting the `comment` of one entry does not change the mode of the last
entry. -/
theorem listModify_comment_getLast? (l : List HistoryEntry) (i : Nat) (c : String) :
    (((listModify (fun e => { e with comment := some c }) l i).getLast?).map (fun e => e.mode)) =
      ((l.getLast?).map (fun e => e.mode)) := by
  induction l generalizing i with
  | nil => rfl
  | cons a rest ih =>
    cases i with
    | zero =>
      cases rest with
      | nil => simp [listModify]
      | cons b t => simp [listModify, List.getLast?_cons_cons]
    | succ n =>
      cases rest with
      | nil => simp [listModify]
      | cons b t =>
        obtain ⟨c', t', he⟩ : ∃ c' t',
            listModify (fun e => { e with comment := some c }) (b :: t) n = c' :: t' := by
          cases n with
          | zero => exact ⟨_, _, rfl⟩
          | succ m => exact ⟨_, _, rfl⟩
        simp only [listModify]
        rw [he, List.getLast?_cons_cons, ← he, List.getLast?_cons_cons]
        exact ih n

/-- `addCommentToHistory` preserves the store invariant. -/
theorem addCommentToHistory_inv (cfg : Config) (taskId : String) (historyIndex : Nat)
    (c : String) (st : Store) (now : Int) (h : StoreInv st) :
    StoreInv (addCommentToHistory cfg taskId historyIndex c st now).2 := by
  have hg := getState_inv cfg taskId st now h
  cases hs : (getState cfg taskId st now).1.state with
  | none => simpa [addCommentToHistory, hs] using hg
  | some s =>
    by_cases hlen : historyIndex < s.modeHistory.length
    · have hsi := getState_state_inv cfg taskId st now s h hs
      have hinv : historyInv
          { s with modeHistory :=
              listModify (fun e => { e with comment := some c }) s.modeHistory historyIndex } := by
        simpa [historyInv, listModify_comment_getLast?] using hsi
      simpa [addCommentToHistory, hs, hlen] using storeInv_save _ taskId _ hg hinv
    · simpa [addCommentToHistory, hs, hlen] using hg

/-- `switchMode` preserves the store invariant: every store it can return is
the input store, the store after `getState`, or the store after
`updateModeHistory`. -/
theorem switchMode_inv (reg : Registry) (hooks : Hooks) (cfg : Config) (mode : Mode)
    (opts : SwitchOptions) (st : Store) (now : Int) (h : StoreInv st) :
    StoreInv (switchMode reg hooks cfg mode opts st now).2 := by
  have hg := getState_inv cfg opts.taskId st now h
  have hu := updateModeHistory_inv cfg opts.taskId mode opts.note
    (getState cfg opts.taskId st now).2 now hg
  unfold switchMode
  split
  · exact h
  · cases hs : (getState cfg opts.taskId st now).1.state with
    | none => simpa [hs] using hg
    | some s =>
      simp only [hs]
      split
      · exact hg
      · split
        · exact hg
        · split
          · exact hg
          · split
            · exact hu
            · split
              · exact hu
              · exact hu

/-- C1: in every reachable store, every persisted workflow state has its
`currentMode` equal to the mode of the last entry of its `modeHistory` —
the history is the single source of truth for the current phase. -/
theorem C1_currentMode_matches_last_history (st : Store) (h : ReachableStore st) :
    ∀ taskId s, st taskId = some s →
      ((s.modeHistory.getLast?).map (fun e => e.mode)) = some s.currentMode := by
  have : StoreInv st := by
    induction h with
    | empty => exact storeInv_empty
    | create cfg taskId opts now st _ ih => exact createState_inv cfg taskId opts st now ih
    | get cfg taskId now st _ ih => exact getState_inv cfg taskId st now ih
    | switchPhase reg hooks cfg mode opts now st _ ih =>
      exact switchMode_inv reg hooks cfg mode opts st now ih
    | updHistory cfg taskId mode note now st _ ih =>
      exact updateModeHistory_inv cfg taskId mode note st now ih
    | checklist cfg taskId mode itemIndex completed now st _ ih =>
      exact updateChecklistItem_inv cfg taskId mode itemIndex completed st now ih
    | note cfg taskId mode txt append now st _ ih =>
      exact updateNote_inv cfg taskId mode txt append st now ih
    | artifact cfg taskId mode fields entropy now st _ ih =>
      exact addArtifact_inv cfg taskId mode fields entropy st now ih
    | comment cfg taskId historyIndex c now st _ ih =>
      exact addCommentToHistory_inv cfg taskId historyIndex c st now ih
  exact this

/-- C1 witness: the invariant evaluated on the state persisted by a concrete
`createState` from the empty store. -/
theorem C1_witness :
    (((freshState defaultConfig "t1" {} 0).modeHistory.getLast?).map (fun e => e.mode)) =
      some (freshState defaultConfig "t1" {} 0).currentMode :=
  C1_currentMode_matches_last_history _
    (ReachableStore.create defaultConfig "t1" {} 0 emptyStore ReachableStore.empty)
    "t1" _ rfl

/-! ## Cycle detection (C9): characterization lemmas -/

/-- Strings with equal character data are equal. -/
theorem stringDataInj (s₁ s₂ : String) (h : s₁.data = s₂.data) : s₁ = s₂ := by
  cases s₁; cases s₂; exact congrArg String.mk h

/-- A separator character splits a concatenation uniquely when neither
prefix contains it. -/
theorem charSplit : ∀ (xs ys r₁ r₂ : List Char), ',' ∉ xs → ',' ∉ ys →
    xs ++ ',' :: r₁ = ys ++ ',' :: r₂ → xs = ys ∧ r₁ = r₂ := by
  intro xs
  induction xs with
  | nil =>
    intro ys r₁ r₂ _ hys h
    cases ys with
    | nil => simpa using h
    | cons y yt =>
      exfalso
      simp only [List.nil_append, List.cons_append, List.cons.injEq] at h
      apply hys
      rw [← h.1]
      exact List.mem_cons_self ',' yt
  | cons x xt ih =>
    intro ys r₁ r₂ hxs hys h
    cases ys with
    | nil =>
      exfalso
      simp only [List.cons_append, List.nil_append, List.cons.injEq] at h
      apply hxs
      rw [h.1]
      exact List.mem_cons_self ',' xt
    | cons y yt =>
      simp only [List.cons_append, List.cons.injEq] at h
      have hxt : ',' ∉ xt := fun hc => hxs (List.mem_cons_of_mem x hc)
      have hyt : ',' ∉ yt := fun hc => hys (List.mem_cons_of_mem y hc)
      obtain ⟨he, ht⟩ := ih yt r₁ r₂ hxt hyt h.2
      exact ⟨by rw [h.1, he], ht⟩

/-- `joinSep` on a two-or-more element list, at the data level. -/
theorem joinSep_cons₂_data (a b : String) (t : List String) :
    (joinSep "," (a :: b :: t)).data = a.data ++ ',' :: (joinSep "," (b :: t)).data := by
  show (a ++ "," ++ joinSep "," (b :: t)).data = _
  rw [String.data_append, String.data_append, List.append_assoc]
  rfl

/-- `','`-joining is injective on equal-length lists of comma-free
strings. -/
theorem joinSep_inj : ∀ (l₁ l₂ : List String),
    (∀ m ∈ l₁, ',' ∉ m.data) → (∀ m ∈ l₂, ',' ∉ m.data) →
    l₁.length = l₂.length → joinSep "," l₁ = joinSep "," l₂ → l₁ = l₂ := by
  intro l₁
  induction l₁ with
  | nil =>
    intro l₂ _ _ hlen _
    cases l₂ with
    | nil => rfl
    | cons b t => simp at hlen
  | cons a t₁ ih =>
    intro l₂ h₁ h₂ hlen hj
    cases l₂ with
    | nil => simp at hlen
    | cons b t₂ =>
      cases t₁ with
      | nil =>
        cases t₂ with
        | nil => rw [show joinSep "," [a] = a from rfl, show joinSep "," [b] = b from rfl] at hj
                 rw [hj]
        | cons c t₃ => simp at hlen
      | cons c₁ r₁ =>
        cases t₂ with
        | nil => simp at hlen
        | cons c₂ r₂ =>
          have hd := congrArg String.data hj
          rw [joinSep_cons₂_data, joinSep_cons₂_data] at hd
          have ha : ',' ∉ a.data := h₁ a (List.mem_cons_self a _)
          have hb : ',' ∉ b.data := h₂ b (List.mem_cons_self b _)
          obtain ⟨he, ht⟩ := charSplit a.data b.data _ _ ha hb hd
          have htail : (c₁ :: r₁) = (c₂ :: r₂) := by
            refine ih (c₂ :: r₂) (fun m hm => h₁ m (List.mem_cons_of_mem a hm))
              (fun m hm => h₂ m (List.mem_cons_of_mem b hm)) (by simpa using hlen) ?_
            exact stringDataInj _ _ ht
          rw [stringDataInj a b he, htail]

/-- Comma count of a `','`-join of comma-free strings: one per separator. -/
theorem joinSep_count_comma : ∀ (l : List String), l ≠ [] →
    (∀ m ∈ l, ',' ∉ m.data) → ((joinSep "," l).data.count ',') = l.length - 1 := by
  intro l
  induction l with
  | nil => intro h; exact absurd rfl h
  | cons a t ih =>
    intro _ hcf
    cases t with
    | nil =>
      show (a.data.count ',') = 0
      exact List.count_eq_zero.mpr (hcf a (List.mem_cons_self a _))
    | cons b t₂ =>
      rw [joinSep_cons₂_data, List.count_append]
      rw [List.count_eq_zero.mpr (hcf a (List.mem_cons_self a _))]
      have := ih (by simp) (fun m hm => hcf m (List.mem_cons_of_mem a hm))
      simp only [List.count_cons_self, this]
      simp

/-- Equal `','`-joins of nonempty comma-free lists force equal lengths. -/
theorem joinSep_length_eq (l₁ l₂ : List String) (hn₁ : l₁ ≠ []) (hn₂ : l₂ ≠ [])
    (h₁ : ∀ m ∈ l₁, ',' ∉ m.data) (h₂ : ∀ m ∈ l₂, ',' ∉ m.data)
    (hj : joinSep "," l₁ = joinSep "," l₂) : l₁.length = l₂.length := by
  have c₁ := joinSep_count_comma l₁ hn₁ h₁
  have c₂ := joinSep_count_comma l₂ hn₂ h₂
  rw [hj, c₂] at c₁
  have p₁ : 0 < l₁.length := List.length_pos.mpr hn₁
  have p₂ : 0 < l₂.length := List.length_pos.mpr hn₂
  omega

/-- Length of a full slice. -/
theorem slice_length {α : Type} (s : List α) (i L : Nat) (h : i + L ≤ s.length) :
    ((s.drop i).take L).length = L := by
  simp only [List.length_take, List.length_drop]
  omega

/-- Bounds carried by one iteration pair of `identifyModeCycles`. -/
theorem mem_cyclePairsFor {n L : Nat} {p : Nat × Nat} (h : p ∈ cyclePairsFor n L) :
    p.1 = L ∧ p.2 + 2 * L ≤ n := by
  unfold cyclePairsFor at h
  split at h
  · obtain ⟨i, hi, rfl⟩ := List.mem_map.mp h
    have := List.mem_range.mp hi
    exact ⟨rfl, by omega⟩
  · simp at h

/-- Every iteration pair of `identifyModeCycles` has cycle length 2..5 and
stays inside the sequence. -/
theorem mem_cyclePairs {n : Nat} {p : Nat × Nat} (h : p ∈ cyclePairs n) :
    2 ≤ p.1 ∧ p.1 ≤ 5 ∧ p.2 + 2 * p.1 ≤ n := by
  unfold cyclePairs at h
  rcases List.mem_append.mp h with h' | h'
  · rcases List.mem_append.mp h' with h'' | h''
    · rcases List.mem_append.mp h'' with h3 | h3
      · obtain ⟨he, hb⟩ := mem_cyclePairsFor h3; omega
      · obtain ⟨he, hb⟩ := mem_cyclePairsFor h3; omega
    · obtain ⟨he, hb⟩ := mem_cyclePairsFor h''; omega
  · obtain ⟨he, hb⟩ := mem_cyclePairsFor h'; omega

/-- Conversely, every in-range pair is iterated. -/
theorem cyclePairs_mem {n L i : Nat} (h2 : 2 ≤ L) (h5 : L ≤ 5) (hb : i + 2 * L ≤ n) :
    (L, i) ∈ cyclePairs n := by
  have hfor : (L, i) ∈ cyclePairsFor n L := by
    unfold cyclePairsFor
    rw [if_pos (by omega)]
    exact List.mem_map.mpr ⟨i, List.mem_range.mpr (by omega), rfl⟩
  unfold cyclePairs
  interval_cases L
  · exact List.mem_append.mpr (Or.inl (List.mem_append.mpr (Or.inl (List.mem_append.mpr (Or.inl hfor)))))
  · exact List.mem_append.mpr (Or.inl (List.mem_append.mpr (Or.inl (List.mem_append.mpr (Or.inr hfor)))))
  · exact List.mem_append.mpr (Or.inl (List.mem_append.mpr (Or.inr hfor)))
  · exact List.mem_append.mpr (Or.inr hfor)

/-- What the loop of `identifyModeCycles` guarantees for each recorded
cycle: in-range length 2..5, the recorded pattern is the slice at the
recorded position, and its `','`-join equals the join of the immediately
following slice. -/
def SoundCycle (s : List String) (c : ModeCycle) : Prop :=
  2 ≤ c.length ∧ c.length ≤ 5 ∧ c.startIndex + 2 * c.length ≤ s.length ∧
  c.pattern = (s.drop c.startIndex).take c.length ∧
  joinSep "," ((s.drop c.startIndex).take c.length) =
    joinSep "," ((s.drop (c.startIndex + c.length)).take c.length)

/-- Soundness of the loop: recorded cycles stay sound. -/
theorem cyclesAux_sound (s : List String) :
    ∀ (pairs : List (Nat × Nat)) (cycles : List ModeCycle) (seen : List String),
    (∀ p ∈ pairs, 2 ≤ p.1 ∧ p.1 ≤ 5 ∧ p.2 + 2 * p.1 ≤ s.length) →
    (∀ c ∈ cycles, SoundCycle s c) →
    ∀ c ∈ cyclesAux s pairs cycles seen, SoundCycle s c := by
  intro pairs
  induction pairs with
  | nil => intro cycles seen _ hc c hmem; exact hc c hmem
  | cons p rest ih =>
    intro cycles seen hp hc
    obtain ⟨L, i⟩ := p
    show ∀ c ∈ cyclesAux s ((L, i) :: rest) cycles seen, SoundCycle s c
    rw [cyclesAux]
    split
    · rename_i hcond
      refine ih _ _ (fun q hq => hp q (List.mem_cons_of_mem _ hq)) ?_
      intro c hmem
      rcases List.mem_append.mp hmem with h' | h'
      · exact hc c h'
      · have hbounds := hp (L, i) (List.mem_cons_self _ _)
        rw [List.mem_singleton.mp h']
        exact ⟨hbounds.1, hbounds.2.1, hbounds.2.2, rfl, hcond.1⟩
    · exact ih _ _ (fun q hq => hp q (List.mem_cons_of_mem _ hq)) hc

/-- Monotonicity: already-recorded cycles survive the rest of the loop. -/
theorem cyclesAux_mono (s : List String) :
    ∀ (pairs : List (Nat × Nat)) (cycles : List ModeCycle) (seen : List String)
      (c : ModeCycle), c ∈ cycles → c ∈ cyclesAux s pairs cycles seen := by
  intro pairs
  induction pairs with
  | nil => intro cycles seen c h; exact h
  | cons p rest ih =>
    intro cycles seen c h
    obtain ⟨L, i⟩ := p
    rw [cyclesAux]
    split
    · exact ih _ _ _ (List.mem_append.mpr (Or.inl h))
    · exact ih _ _ _ h

/-- Completeness of the loop: when an immediate repetition occurs at an
iterated position, the final cycle list contains a cycle with the same
joined pattern — provided `seen` holds exactly the joins of the already
recorded cycles. -/
theorem cyclesAux_complete (s : List String) :
    ∀ (pairs : List (Nat × Nat)) (cycles : List ModeCycle) (seen : List String),
    (∀ k, k ∈ seen ↔ ∃ c ∈ cycles, joinSep "," c.pattern = k) →
    ∀ L i, (L, i) ∈ pairs →
      joinSep "," ((s.drop i).take L) = joinSep "," ((s.drop (i + L)).take L) →
      ∃ c ∈ cyclesAux s pairs cycles seen,
        joinSep "," c.pattern = joinSep "," ((s.drop i).take L) := by
  intro pairs
  induction pairs with
  | nil => intro cycles seen _ L i hmem; exact absurd hmem (List.not_mem_nil _)
  | cons p rest ih =>
    intro cycles seen hinv L i hmem hrep
    obtain ⟨L₀, i₀⟩ := p
    rw [cyclesAux]
    split
    · rename_i hcond
      have hinv' : ∀ k, k ∈ (joinSep "," ((s.drop i₀).take L₀) :: seen) ↔
          ∃ c ∈ cycles ++ [{ pattern := (s.drop i₀).take L₀, startIndex := i₀, length := L₀ }],
            joinSep "," c.pattern = k := by
        intro k
        constructor
        · intro hk
          rcases List.mem_cons.mp hk with hk | hk
          · exact ⟨_, List.mem_append.mpr (Or.inr (List.mem_singleton.mpr rfl)), hk.symm⟩
          · obtain ⟨c, hc, hcj⟩ := (hinv k).mp hk
            exact ⟨c, List.mem_append.mpr (Or.inl hc), hcj⟩
        · rintro ⟨c, hc, hcj⟩
          rcases List.mem_append.mp hc with hc | hc
          · exact List.mem_cons_of_mem _ ((hinv k).mpr ⟨c, hc, hcj⟩)
          · rw [List.mem_singleton.mp hc] at hcj
            exact hcj ▸ List.mem_cons_self _ _
      rcases List.mem_cons.mp hmem with hpair | hpair
      · have heL : L = L₀ ∧ i = i₀ := by
          have := Prod.mk.injEq L i L₀ i₀ ▸ hpair
          exact ⟨congrArg Prod.fst hpair, congrArg Prod.snd hpair⟩
        obtain ⟨rfl, rfl⟩ := heL
        refine ⟨{ pattern := (s.drop i).take L, startIndex := i, length := L },
          cyclesAux_mono s _ _ _ _ (List.mem_append.mpr (Or.inr (List.mem_singleton.mpr rfl))), rfl⟩
      · exact ih _ _ hinv' L i hpair hrep
    · rename_i hcond
      rcases List.mem_cons.mp hmem with hpair | hpair
      · have heL : L = L₀ ∧ i = i₀ :=
          ⟨congrArg Prod.fst hpair, congrArg Prod.snd hpair⟩
        obtain ⟨rfl, rfl⟩ := heL
        have hseen : joinSep "," ((s.drop i).take L) ∈ seen := by
          by_contra hns
          exact hcond ⟨hrep, hns⟩
        obtain ⟨c, hc, hcj⟩ := (hinv _).mp hseen
        exact ⟨c, cyclesAux_mono s _ _ _ _ hc, hcj⟩
      · exact ih _ _ hinv L i hpair hrep

/-- The loop records each joined pattern at most once. -/
theorem cyclesAux_nodup (s : List String) :
    ∀ (pairs : List (Nat × Nat)) (cycles : List ModeCycle) (seen : List String),
    (∀ k, k ∈ seen ↔ ∃ c ∈ cycles, joinSep "," c.pattern = k) →
    (cycles.map (fun c => joinSep "," c.pattern)).Nodup →
    ((cyclesAux s pairs cycles seen).map (fun c => joinSep "," c.pattern)).Nodup := by
  intro pairs
  induction pairs with
  | nil => intro cycles seen _ hnd; exact hnd
  | cons p rest ih =>
    intro cycles seen hinv hnd
    obtain ⟨L₀, i₀⟩ := p
    rw [cyclesAux]
    split
    · rename_i hcond
      have hinv' : ∀ k, k ∈ (joinSep "," ((s.drop i₀).take L₀) :: seen) ↔
          ∃ c ∈ cycles ++ [{ pattern := (s.drop i₀).take L₀, startIndex := i₀, length := L₀ }],
            joinSep "," c.pattern = k := by
        intro k
        constructor
        · intro hk
          rcases List.mem_cons.mp hk with hk | hk
          · exact ⟨_, List.mem_append.mpr (Or.inr (List.mem_singleton.mpr rfl)), hk.symm⟩
          · obtain ⟨c, hc, hcj⟩ := (hinv k).mp hk
            exact ⟨c, List.mem_append.mpr (Or.inl hc), hcj⟩
        · rintro ⟨c, hc, hcj⟩
          rcases List.mem_append.mp hc with hc | hc
          · exact List.mem_cons_of_mem _ ((hinv k).mpr ⟨c, hc, hcj⟩)
          · rw [List.mem_singleton.mp hc] at hcj
            exact hcj ▸ List.mem_cons_self _ _
      refine ih _ _ hinv' ?_
      rw [List.map_append]
      rw [List.nodup_append]
      refine ⟨hnd, List.nodup_singleton _, ?_⟩
      intro k hk hk'
      simp only [List.map_cons, List.map_nil, List.mem_singleton] at hk'
      obtain ⟨c, hc, hcj⟩ := List.mem_map.mp hk
      exact hcond.2 ((hinv _).mpr ⟨c, hc, by rw [hcj, hk']⟩)
    · exact ih _ _ hinv hnd

/-- C9: over any sequence of comma-free phase names, `identifyModeCycles`
(i) reports only genuine cycles: each recorded `\x7b pattern, startIndex,
length \x7d` has length 2..5, its pattern is the slice at `startIndex`, and
that slice is immediately followed by an identical slice; (ii) reports each
distinct pattern content at most once; (iii) reports some cycle with the
pattern content of *every* immediate repetition of length 2..5; and (iv) on
`[A,B,A,B,A,B]` it reports a cycle of length 2 with pattern `[A,B]`. -/
theorem C9_cycle_detection (s : List String) (hcf : ∀ m ∈ s, ',' ∉ m.data) :
    (∀ c ∈ identifyModeCycles s,
      2 ≤ c.length ∧ c.length ≤ 5 ∧ c.startIndex + 2 * c.length ≤ s.length ∧
      c.pattern = (s.drop c.startIndex).take c.length ∧
      (s.drop c.startIndex).take c.length = (s.drop (c.startIndex + c.length)).take c.length) ∧
    ((identifyModeCycles s).map (fun c => c.pattern)).Nodup ∧
    (∀ L i, 2 ≤ L → L ≤ 5 → i + 2 * L ≤ s.length →
      (s.drop i).take L = (s.drop (i + L)).take L →
      ∃ c ∈ identifyModeCycles s, c.pattern = (s.drop i).take L) ∧
    (∃ c ∈ identifyModeCycles ["A", "B", "A", "B", "A", "B"],
      c.length = 2 ∧ c.pattern = ["A", "B"]) := by
  have hsl : ∀ (i L : Nat), ∀ m ∈ (s.drop i).take L, ',' ∉ m.data := fun i L m hm =>
    hcf m (List.mem_of_mem_drop (List.mem_of_mem_take hm))
  have hsound : ∀ c ∈ identifyModeCycles s, SoundCycle s c :=
    cyclesAux_sound s (cyclePairs s.length) [] []
      (fun p hp => mem_cyclePairs hp) (fun c hc => absurd hc (List.not_mem_nil c))
  have hinv0 : ∀ k : String, k ∈ ([] : List String) ↔
      ∃ c ∈ ([] : List ModeCycle), joinSep "," c.pattern = k := by
    intro k; simp
  refine ⟨?_, ?_, ?_, by decide⟩
  · intro c hc
    obtain ⟨h2, h5, hb, hpat, hj⟩ := hsound c hc
    refine ⟨h2, h5, hb, hpat, ?_⟩
    refine joinSep_inj _ _ (hsl _ _) (hsl _ _) ?_ hj
    rw [slice_length s c.startIndex c.length (by omega),
      slice_length s (c.startIndex + c.length) c.length (by omega)]
  · have hkeys := cyclesAux_nodup s (cyclePairs s.length) [] [] hinv0 (by simp)
    have hmapmap :
        ((identifyModeCycles s).map (fun c => c.pattern)).map (fun p => joinSep "," p) =
          (identifyModeCycles s).map (fun c => joinSep "," c.pattern) := by
      rw [List.map_map]
      rfl
    exact List.Nodup.of_map _ (hmapmap ▸ hkeys)
  · intro L i h2 h5 hb hrep
    have hjrep : joinSep "," ((s.drop i).take L) = joinSep "," ((s.drop (i + L)).take L) :=
      congrArg _ hrep
    obtain ⟨c, hc, hcj⟩ := cyclesAux_complete s (cyclePairs s.length) [] [] hinv0 L i
      (cyclePairs_mem h2 h5 hb) hjrep
    obtain ⟨hc2, hc5, hcb, hcpat, _⟩ := hsound c hc
    refine ⟨c, hc, ?_⟩
    have hclen : c.pattern.length = c.length := by
      rw [hcpat]; exact slice_length s c.startIndex c.length (by omega)
    have hslen : ((s.drop i).take L).length = L := slice_length s i L (by omega)
    have hne₁ : c.pattern ≠ [] := by
      intro hnil; rw [hnil] at hclen; simp at hclen; omega
    have hne₂ : (s.drop i).take L ≠ [] := by
      intro hnil; rw [hnil] at hslen; simp at hslen; omega
    have hcf₁ : ∀ m ∈ c.pattern, ',' ∉ m.data := by
      rw [hcpat]; exact hsl _ _
    have hlen : c.pattern.length = ((s.drop i).take L).length :=
      joinSep_length_eq _ _ hne₁ hne₂ hcf₁ (hsl _ _) hcj
    exact joinSep_inj _ _ hcf₁ (hsl _ _) hlen hcj

/-- C9 witness: the comma-free hypothesis discharged on the concrete
sequence `[A,B,A,B,A,B]`, extracting the concrete detected cycle. -/
theorem C9_witness :
    ∃ c ∈ identifyModeCycles ["A", "B", "A", "B", "A", "B"],
      c.length = 2 ∧ c.pattern = ["A", "B"] :=
  (C9_cycle_detection ["A", "B", "A", "B", "A", "B"] (by decide)).2.2.2
